import Mathlib

/-!
# overlaybd-apply: the checksumming read wrapper and the driver

A shallow embedding of `src/tools/overlaybd-apply.cpp`:

* `SHA256CheckedFile` (the constructor, `read`, `sha256_checksum`), a read-only
  file that forwards every read to an inner `IFile` and feeds the bytes it got
  to an OpenSSL SHA-256 context;
* `open_file` and `main`, as a function of the parsed options and of what the
  collaborators (photon, the image service, extfs, gzip, `UnTar`) answer.

The inner file and the OpenSSL SHA-256 interface are not part of the
repository; they are parameters of the embedding.  A SHA-256 instance written
after FIPS 180-4, in the streaming shape of OpenSSL, is provided so that the
statements can be evaluated on concrete streams.  Log output (`LOG_ERROR`,
`LOG_WARN`, `fprintf`) is not part of the modelled state, except for the
"too much trailing data" warning, which is returned as a flag.
-/

namespace Overlaybd

/-! ## Bytes, files, the digest interface -/

/-- An `unsigned char`. -/
abbrev Byte := Fin 256

/-- What a call `file->read(buf, count)` leaves behind: the returned `ssize_t`,
the contents of `buf` after the call, and the file after the call. -/
structure ReadResult (F : Type) where
  rc : Int
  buf : List Byte
  file : F

/-- The virtual method `IFile::read` of a file whose state has type `F`. -/
structure IFile (F : Type) where
  read : F → Nat → ReadResult F

/-- The array `unsigned char sha[32]` once `SHA256_Final` has filled it. -/
abbrev Digest := { l : List Byte // l.length = 32 }

/-- The three functions of `<openssl/sha.h>` the program calls, over a context
of type `Ctx`: `SHA256_Init` gives the context it leaves, `SHA256_Update` the
returned `int` and the context afterwards, `SHA256_Final` the 32 bytes written
to `md` and the context afterwards. -/
structure OpenSSL (Ctx : Type) where
  SHA256_Init : Ctx
  SHA256_Update : Ctx → List Byte → Int × Ctx
  SHA256_Final : Ctx → Digest × Ctx

/-- `SHA256_DIGEST_LENGTH` of `<openssl/sha.h>`. -/
def SHA256_DIGEST_LENGTH : Nat := 32

/-! ## class SHA256CheckedFile -/

/-- The data members of `class SHA256CheckedFile`. -/
structure SHA256CheckedFile (F Ctx : Type) where
  m_file : F
  ctx : Ctx
  total_read : Nat

/-- The constructor `SHA256CheckedFile(IFile *file)`: `total_read = 0` and
`SHA256_Init(&ctx)`. -/
def SHA256CheckedFile.ctor {F Ctx : Type} (ssl : OpenSSL Ctx) (file : F) :
    SHA256CheckedFile F Ctx :=
  { m_file := file, ctx := ssl.SHA256_Init, total_read := 0 }

/-- The method `ssize_t read(void *buf, size_t count)`.  `SHA256_Update` is
called only when `rc > 0`, on the first `rc` bytes of `buf`. -/
def SHA256CheckedFile.read {F Ctx : Type} (ssl : OpenSSL Ctx) (inner : IFile F)
    (self : SHA256CheckedFile F Ctx) (count : Nat) :
    ReadResult (SHA256CheckedFile F Ctx) :=
  let r := inner.read self.m_file count
  if r.rc > 0 then
    let u := ssl.SHA256_Update self.ctx (r.buf.take r.rc.toNat)
    if u.1 < 0 then
      ⟨-1, r.buf, { self with m_file := r.file, ctx := u.2 }⟩
    else
      ⟨r.rc, r.buf, { self with m_file := r.file, ctx := u.2 }⟩
  else
    ⟨r.rc, r.buf, { self with m_file := r.file }⟩

/-- The wrapper seen as an `IFile` again, as `UnTar` sees it. -/
def SHA256CheckedFile.asIFile {F Ctx : Type} (ssl : OpenSSL Ctx) (inner : IFile F) :
    IFile (SHA256CheckedFile F Ctx) :=
  ⟨SHA256CheckedFile.read ssl inner⟩

/-- A `char` array on the stack together with the stores that fell outside
of it: `cells` is the declared array, `oob` lists, in order, the index and the
character of every store at an index past the end. -/
structure CharBuf where
  cells : List Char
  oob : List (Nat × Char)
deriving DecidableEq, Repr

/-- The store `buf[i] = c`. -/
def CharBuf.store (b : CharBuf) (i : Nat) (c : Char) : CharBuf :=
  if i < b.cells.length then { b with cells := b.cells.set i c }
  else { b with oob := b.oob ++ [(i, c)] }

/-- One lowercase hexadecimal digit, as `%x` prints it. -/
def hexdigit (n : Nat) : Char :=
  if n < 10 then Char.ofNat (48 + n) else Char.ofNat (87 + n)

/-- The call `sprintf(res + off, "%02x", v)` for an `unsigned char v`: two
hexadecimal digits, then the terminating NUL. -/
def sprintf_02x (res : CharBuf) (off : Nat) (v : Byte) : CharBuf :=
  ((res.store off (hexdigit (v.val / 16))).store (off + 1) (hexdigit (v.val % 16))).store
    (off + 2) (Char.ofNat 0)

/-- The loop `for (int i = 0; i < SHA256_DIGEST_LENGTH; i++)
sprintf(res + (i * 2), "%02x", sha[i]);`. -/
def format_loop (sha : Digest) (res : CharBuf) : CharBuf :=
  (List.range SHA256_DIGEST_LENGTH).foldl
    (fun acc i => sprintf_02x acc (i * 2) (sha.1.getD i 0)) res

/-- The array `char res[SHA256_DIGEST_LENGTH * 2]` as declared; it is not
initialised by the program, the zero content stands for whatever the stack
holds. -/
def res_decl : CharBuf :=
  ⟨List.replicate (SHA256_DIGEST_LENGTH * 2) (Char.ofNat 0), []⟩

/-- What `sha256_checksum()` leaves behind: the returned string, whether
"too much trailing data" was logged, the stores of the formatting loop that
fell outside `res`, and the object afterwards. -/
structure ChecksumResult (F Ctx : Type) where
  value : String
  warned : Bool
  oob : List (Nat × Char)
  file : SHA256CheckedFile F Ctx

/-- The part of `sha256_checksum()` below the comment "calc sha256 result":
`SHA256_Final(sha, &ctx)`, the formatting loop, and the returned string.  The
store past the end of `res` is recorded in `oob` and the call then goes on as
if that store had hit memory nothing else uses. -/
def SHA256CheckedFile.calc_result {F Ctx : Type} (ssl : OpenSSL Ctx)
    (self : SHA256CheckedFile F Ctx) (warned : Bool) : ChecksumResult F Ctx :=
  let fin := ssl.SHA256_Final self.ctx
  let res := format_loop fin.1 res_decl
  ⟨"sha256:" ++ String.mk (res.cells.take (SHA256_DIGEST_LENGTH * 2)), warned, res.oob,
    { self with ctx := fin.2 }⟩

/-- The method `std::string sha256_checksum()`: one read of `64*1024` bytes
for the trailing data, `SHA256_Update` on what it returned when `rc > 0`, then
the digest as a string. -/
def SHA256CheckedFile.sha256_checksum {F Ctx : Type} (ssl : OpenSSL Ctx) (inner : IFile F)
    (self : SHA256CheckedFile F Ctx) : ChecksumResult F Ctx :=
  let r := inner.read self.m_file (64 * 1024)
  let warned := decide (r.rc = 64 * 1024)
  if r.rc > 0 then
    let u := ssl.SHA256_Update self.ctx (r.buf.take r.rc.toNat)
    if u.1 < 0 then
      ⟨"", warned, [], { self with m_file := r.file, ctx := u.2 }⟩
    else
      SHA256CheckedFile.calc_result ssl { self with m_file := r.file, ctx := u.2 } warned
  else
    SHA256CheckedFile.calc_result ssl { self with m_file := r.file } warned

/-! ## Vocabulary of the statements -/

/-- The results of successive `read` calls with the given counts, in call order. -/
def IFile.run {F : Type} (f : IFile F) : F → List Nat → List (ReadResult F)
  | _, [] => []
  | s, c :: cs => f.read s c :: IFile.run f (f.read s c).file cs

/-- The file after successive `read` calls with the given counts. -/
def IFile.after {F : Type} (f : IFile F) : F → List Nat → F
  | s, [] => s
  | s, c :: cs => IFile.after f (f.read s c).file cs

/-- The bytes one read hands to the caller: the first `rc` bytes of the buffer
when `rc > 0`, none otherwise. -/
def ReadResult.bytes {F : Type} (r : ReadResult F) : List Byte :=
  if r.rc > 0 then r.buf.take r.rc.toNat else []

/-- The concatenation, in call order, of the bytes handed out by a list of reads. -/
def returnedBytes {F : Type} (rs : List (ReadResult F)) : List Byte :=
  (rs.map ReadResult.bytes).flatten

/-- The sum of the positive return values of a list of reads. -/
def positiveTotal {F : Type} (rs : List (ReadResult F)) : Int :=
  (rs.map (fun r => if r.rc > 0 then r.rc else 0)).sum

/-- An inner file that records the `count` of every `read` it receives. -/
def IFile.logged {F : Type} (f : IFile F) : IFile (F × List Nat) :=
  ⟨fun s count =>
    ⟨(f.read s.1 count).rc, (f.read s.1 count).buf, ((f.read s.1 count).file, s.2 ++ [count])⟩⟩

/-- The context that has absorbed `msg` in one `SHA256_Update` after `SHA256_Init`. -/
def OpenSSL.absorb {Ctx : Type} (ssl : OpenSSL Ctx) (msg : List Byte) : Ctx :=
  (ssl.SHA256_Update ssl.SHA256_Init msg).2

/-- The digest of `msg` computed directly: `SHA256_Init`, one `SHA256_Update`
over the whole message, `SHA256_Final`. -/
def OpenSSL.digest {Ctx : Type} (ssl : OpenSSL Ctx) (msg : List Byte) : Digest :=
  (ssl.SHA256_Final (ssl.absorb msg)).1

/-- The context `sha256_checksum()` hands to `SHA256_Final`: the trailing read
absorbed when it returned `rc > 0`, the context as it was otherwise. -/
def SHA256CheckedFile.drained {F Ctx : Type} (self : SHA256CheckedFile F Ctx)
    (ssl : OpenSSL Ctx) (inner : IFile F) : Ctx :=
  if (inner.read self.m_file (64 * 1024)).rc > 0 then
    (ssl.SHA256_Update self.ctx (inner.read self.m_file (64 * 1024)).bytes).2
  else self.ctx

/-- What the documentation of `<openssl/sha.h>` promises of `SHA256_Update`:
it returns 1 for success and 0 otherwise, an empty update changes nothing, and
updating with `a` and then with `b` is updating with `a ++ b`. -/
structure OpenSSL.Conforms {Ctx : Type} (ssl : OpenSSL Ctx) : Prop where
  ret : ∀ c d, (ssl.SHA256_Update c d).1 = 1 ∨ (ssl.SHA256_Update c d).1 = 0
  update_nil : ∀ c, (ssl.SHA256_Update c []).2 = c
  update_append : ∀ c a b,
    (ssl.SHA256_Update (ssl.SHA256_Update c a).2 b).2 = (ssl.SHA256_Update c (a ++ b)).2

/-- The inner file is a byte stream: `remaining` tells the bytes still to come,
every read hands out a front part of them, whatever its size, and leaves the rest. -/
structure IsStream {F : Type} (inner : IFile F) (remaining : F → List Byte) : Prop where
  front : ∀ s n, (inner.read s n).bytes = (remaining s).take (inner.read s n).rc.toNat
  rest : ∀ s n, remaining (inner.read s n).file = (remaining s).drop (inner.read s n).rc.toNat

/-- Lowercase two-digit hexadecimal encoding of a byte string, byte by byte. -/
def hexString (bs : List Byte) : List Char :=
  (bs.map (fun b => [hexdigit (b.val / 16), hexdigit (b.val % 16)])).flatten

/-- A stream over a byte list that hands out at most `cap` bytes per read; the
part of the buffer it does not fill reads as zero. -/
def chunkedFile (cap : Nat) : IFile (List Byte) :=
  ⟨fun data count =>
    ⟨((min count (min cap data.length) : Nat) : Int),
     data.take (min count (min cap data.length)) ++
       List.replicate (count - min count (min cap data.length)) 0,
     data.drop (min count (min cap data.length))⟩⟩

/-! ## SHA-256 after FIPS 180-4, in the streaming shape of OpenSSL -/

namespace FIPS180

/-- The first sixty-four prime numbers. -/
def primes : List Nat := [
  2, 3, 5, 7, 11, 13, 17, 19, 23, 29, 31, 37, 41, 43, 47, 53,
  59, 61, 67, 71, 73, 79, 83, 89, 97, 101, 103, 107, 109, 113, 127, 131,
  137, 139, 149, 151, 157, 163, 167, 173, 179, 181, 191, 193, 197, 199, 211, 223,
  227, 229, 233, 239, 241, 251, 257, 263, 269, 271, 277, 281, 283, 293, 307, 311]

/-- The largest `r` below `2 ^ bits` with `r ^ k ≤ n`, built bit by bit from
the top, on top of the bits already in `r`. -/
def rootBits (k n : Nat) : Nat → Nat → Nat
  | 0, r => r
  | b + 1, r => if (r + 2 ^ b) ^ k ≤ n then rootBits k n b (r + 2 ^ b) else rootBits k n b r

/-- The first 32 bits of the fractional part of the `k`-th root of `p`. -/
def fracRoot (k p : Nat) : Nat :=
  rootBits k (p * 2 ^ (32 * k)) 40 0 % 4294967296

/-- The round constants `K`, in decimal: the first 32 bits of the fractional
parts of the cube roots of the first sixty-four primes. -/
def K : List Nat := [
  1116352408, 1899447441, 3049323471, 3921009573, 961987163, 1508970993,
  2453635748, 2870763221, 3624381080, 310598401, 607225278, 1426881987,
  1925078388, 2162078206, 2614888103, 3248222580, 3835390401, 4022224774,
  264347078, 604807628, 770255983, 1249150122, 1555081692, 1996064986,
  2554220882, 2821834349, 2952996808, 3210313671, 3336571891, 3584528711,
  113926993, 338241895, 666307205, 773529912, 1294757372, 1396182291,
  1695183700, 1986661051, 2177026350, 2456956037, 2730485921, 2820302411,
  3259730800, 3345764771, 3516065817, 3600352804, 4094571909, 275423344,
  430227734, 506948616, 659060556, 883997877, 958139571, 1322822218,
  1537002063, 1747873779, 1955562222, 2024104815, 2227730452, 2361852424,
  2428436474, 2756734187, 3204031479, 3329325298]

/-- The initial hash value, in decimal: the first 32 bits of the fractional
parts of the square roots of the first eight primes. -/
def H0 : List Nat := [
  1779033703, 3144134277, 1013904242, 2773480762,
  1359893119, 2600822924, 528734635, 1541459225]

/-- Reduction to a 32-bit word. -/
def w32 (x : Nat) : Nat := x % 4294967296

/-- Rotation of a 32-bit word to the right. -/
def rotr (x n : Nat) : Nat := w32 ((x >>> n) ||| (x <<< (32 - n)))

/-- The function Ch. -/
def Ch (x y z : Nat) : Nat := (x &&& y) ^^^ ((4294967295 - x) &&& z)

/-- The function Maj. -/
def Maj (x y z : Nat) : Nat := (x &&& y) ^^^ (x &&& z) ^^^ (y &&& z)

/-- The function written with a capital sigma and index 0. -/
def Sigma0 (x : Nat) : Nat := rotr x 2 ^^^ rotr x 13 ^^^ rotr x 22

/-- The function written with a capital sigma and index 1. -/
def Sigma1 (x : Nat) : Nat := rotr x 6 ^^^ rotr x 11 ^^^ rotr x 25

/-- The function written with a small sigma and index 0. -/
def sigma0 (x : Nat) : Nat := rotr x 7 ^^^ rotr x 18 ^^^ (x >>> 3)

/-- The function written with a small sigma and index 1. -/
def sigma1 (x : Nat) : Nat := rotr x 17 ^^^ rotr x 19 ^^^ (x >>> 10)

/-- The big-endian 32-bit words of a byte string. -/
def beWords : List Byte → List Nat
  | a :: b :: c :: d :: rest =>
    (a.val * 16777216 + b.val * 65536 + c.val * 256 + d.val) :: beWords rest
  | _ => []

/-- The message schedule: `n` words, starting from a window of sixteen. -/
def schedule : Nat → List Nat → List Nat
  | 0, _ => []
  | n + 1, win =>
    win.getD 0 0 :: schedule n (win.drop 1 ++
      [w32 (sigma1 (win.getD 14 0) + win.getD 9 0 + sigma0 (win.getD 1 0) + win.getD 0 0)])

/-- One round on the eight working variables, with constant `kw.1` and
schedule word `kw.2`. -/
def round (s : List Nat) (kw : Nat × Nat) : List Nat :=
  match s with
  | [a, b, c, d, e, f, g, h] =>
    [w32 (h + Sigma1 e + Ch e f g + kw.1 + kw.2 + (Sigma0 a + Maj a b c)), a, b, c,
      w32 (d + (h + Sigma1 e + Ch e f g + kw.1 + kw.2)), e, f, g]
  | _ => s

/-- The compression of one 64-byte block into the hash value `h`. -/
def compress (h : List Nat) (block : List Byte) : List Nat :=
  List.zipWith (fun x y => w32 (x + y)) h ((K.zip (schedule 64 (beWords block))).foldl round h)

/-- Byte `i` (0 the most significant) of the `n`-byte big-endian form of `x`. -/
def beByte (n x i : Nat) : Byte :=
  ⟨(x >>> (8 * (n - 1 - i))) % 256, Nat.mod_lt _ (by decide)⟩

/-- The context `SHA256_CTX`: the hash value `h[8]`, the bit count `Nh:Nl`,
and the `num` bytes waiting in `data`. -/
structure SHA256_CTX where
  h : List Nat
  bits : Nat
  data : List Byte
deriving DecidableEq, Repr

/-- Absorbing one byte: it joins `data`, and a full block is compressed. -/
def pushByte (c : SHA256_CTX) (b : Byte) : SHA256_CTX :=
  if (c.data ++ [b]).length = 64 then
    ⟨compress c.h (c.data ++ [b]), (c.bits + 8) % 18446744073709551616, []⟩
  else
    ⟨c.h, (c.bits + 8) % 18446744073709551616, c.data ++ [b]⟩

/-- The padded tail: the waiting bytes, `0x80`, zeros, and the bit count in
the last eight bytes of the last block. -/
def padded (c : SHA256_CTX) : List Byte :=
  c.data ++ [128] ++
    List.replicate ((if c.data.length + 1 > 56 then 120 else 56) - (c.data.length + 1)) 0 ++
    (List.range 8).map (beByte 8 c.bits)

/-- The hash value after the padded tail. -/
def finalHash (c : SHA256_CTX) : List Nat :=
  if c.data.length + 1 > 56 then
    compress (compress c.h ((padded c).take 64)) ((padded c).drop 64)
  else
    compress c.h (padded c)

/-- The 32 digest bytes of a hash value, each word big-endian. -/
def digestOf (h : List Nat) : Digest :=
  ⟨(List.range 32).map (fun i => beByte 4 (h.getD (i / 4) 0) (i % 4)), by simp⟩

/-- SHA-256 behind the OpenSSL interface.  `SHA256_Final` leaves the final
hash value in `h` and an empty `data`. -/
def sha256 : OpenSSL SHA256_CTX :=
  { SHA256_Init := ⟨H0, 0, []⟩
    SHA256_Update := fun c d => (1, d.foldl pushByte c)
    SHA256_Final := fun c => (digestOf (finalHash c), ⟨finalHash c, c.bits, []⟩) }

/-- The same library with a `SHA256_Update` that reports failure: it returns
0 and leaves the context as it was. -/
def sha256_failing : OpenSSL SHA256_CTX :=
  { sha256 with SHA256_Update := fun c _ => (0, c) }

end FIPS180

/-! ## open_file and main -/

/-- The command line once `CLI11_PARSE` has accepted it. -/
structure Options where
  raw : Bool
  mkfs : Bool
  verbose : Bool
  config_path : String
  gz_index_path : String
  sha256_checksum : String
  input_path : String
  image_config_path : String
deriving DecidableEq, Repr

/-- What the collaborators answer to `main`, one field per result `main`
looks at or logs: a pointer is `true` when it is not null; `sha256_checksum`
is the string `checksum_file->sha256_checksum()` returns after the extraction.
The pointer `open_gzfile_adaptor` returns is handed to `UnTar` (or to the
checksum wrapper) without being looked at, so it is no field here: what
becomes of it shows in `extract_all`. -/
structure Collaborators where
  open_image : Bool
  create_image_service : Bool
  create_image_file : Bool
  make_extfs : Int
  new_extfs : Bool
  new_subfs : Bool
  open_input : Bool
  is_gzfile : Bool
  create_gz_index : Int
  get_base : Bool
  extract_all : Int
  sha256_checksum : String
deriving DecidableEq, Repr

/-- The calls `main` makes to its collaborators, with the arguments it passes. -/
inductive Call where
  | open_localfile_adaptor (fn : String) (flags : Nat) (mode : Nat)
  | create_image_service (config_path : Option String)
  | create_image_file (config_path : String)
  | make_extfs
  | new_extfs (buffer : Bool)
  | new_subfs (path : String) (ownership : Bool)
  | is_gzfile
  | create_gz_index (index_path : String) (span : Nat)
  | lseek (offset : Nat) (whence : Nat)
  | open_gzfile_adaptor (path : String)
  | new_SHA256CheckedFile
  | get_base
  | new_UnTar (flags : Nat) (fs_blocksize : Nat) (base_file : Bool) (last : Bool)
  | extract_all
  | sha256_checksum
deriving DecidableEq, Repr

/-- The end of a run: the exit status the parent process sees and the calls
made, in order. -/
structure Run where
  status : Nat
  calls : List Call
deriving DecidableEq, Repr

/-- `O_RDONLY` of `<fcntl.h>`. -/
def O_RDONLY : Nat := 0

/-- `O_RDWR` of `<fcntl.h>`. -/
def O_RDWR : Nat := 2

/-- `exit(code)`, or `return code` from `main`: the parent sees the low
eight bits. -/
def exit (code : Int) (calls : List Call) : Run :=
  ⟨(code % 256).toNat, calls⟩

/-- The function `open_file(fn, flags, mode)`: `exit(-1)` when
`open_localfile_adaptor` returns null, else the run goes on with `k`. -/
def open_file (file : Bool) (fn : String) (flags mode : Nat) (t : List Call)
    (k : List Call → Run) : Run :=
  if file = false then exit (-1) (t ++ [Call.open_localfile_adaptor fn flags mode])
  else k (t ++ [Call.open_localfile_adaptor fn flags mode])

/-- Lines 187 to 206 of `main`: `get_base`, the `UnTar` object,
`extract_all`, and the comparison of the checksum. -/
def main_untar (o : Options) (w : Collaborators) (t : List Call) : Run :=
  let t1 := (if o.raw then t else t ++ [Call.get_base]) ++
    [Call.new_UnTar 0 4096 (!o.raw && w.get_base) (o.gz_index_path != ""), Call.extract_all]
  if w.extract_all < 0 then exit (-1) t1
  else if o.sha256_checksum.isEmpty = false then
    if w.sha256_checksum != o.sha256_checksum then exit (-1) (t1 ++ [Call.sha256_checksum])
    else exit 0 (t1 ++ [Call.sha256_checksum])
  else exit 0 t1

/-- Lines 166 to 185 of `main`: the input file, the gzip index and adaptor,
the checksum wrapper. -/
def main_source (o : Options) (w : Collaborators) (t : List Call) : Run :=
  open_file w.open_input o.input_path O_RDONLY 0o666 t fun t1 =>
    let t2 := t1 ++ [Call.is_gzfile] ++
      (if w.is_gzfile then
        (if o.gz_index_path != "" then
          [Call.create_gz_index o.gz_index_path (1024 * 1024), Call.lseek 0 0]
         else []) ++ [Call.open_gzfile_adaptor o.input_path]
       else [])
    main_untar o w (if o.sha256_checksum.isEmpty = false then t2 ++ [Call.new_SHA256CheckedFile]
      else t2)

/-- Lines 143 to 164 of `main`: the null check of the image file, `make_extfs`,
`new_extfs`, `new_subfs`. -/
def main_target (o : Options) (w : Collaborators) (imgfile : Bool) (t : List Call) : Run :=
  if imgfile = false then exit (-1) t
  else
    let t1 := if o.mkfs then t ++ [Call.make_extfs] else t
    if o.mkfs = true ∧ w.make_extfs < 0 then exit (-1) t1
    else if w.new_extfs = false then exit (-1) (t1 ++ [Call.new_extfs (o.gz_index_path == "")])
    else if w.new_subfs = false then
      exit (-1) (t1 ++ [Call.new_extfs (o.gz_index_path == ""), Call.new_subfs "/" true])
    else
      main_source o w (t1 ++ [Call.new_extfs (o.gz_index_path == ""), Call.new_subfs "/" true])

/-- The function `main` from line 126 on, that is once the command line is
parsed and photon is set up. -/
def main (o : Options) (w : Collaborators) : Run :=
  if o.raw then
    open_file w.open_image o.image_config_path O_RDWR 0o644 [] fun t =>
      main_target o w true t
  else
    if w.create_image_service = false then
      exit (-1) [Call.create_image_service
        (if o.config_path.isEmpty then none else some o.config_path)]
    else
      main_target o w w.create_image_file
        [Call.create_image_service (if o.config_path.isEmpty then none else some o.config_path),
         Call.create_image_file o.image_config_path]

/-- What a list of calls says about the engine and the gzip index: every
`UnTar` in it is built with flags 0, block size 4096 and `gz_index_path != ""`
as last argument; every `create_gz_index` in it is for a gzip input and a
non-empty `gz_index_path`, with that path and stride 1048576; and when it
reaches `extract_all` for a gzip input with a non-empty `gz_index_path`, it
holds that `create_gz_index`. -/
def EngineCalls (o : Options) (w : Collaborators) (r : List Call) : Prop :=
  (∀ f b base m, Call.new_UnTar f b base m ∈ r →
    f = 0 ∧ b = 4096 ∧ m = (o.gz_index_path != "")) ∧
  (∀ p s, Call.create_gz_index p s ∈ r →
    w.is_gzfile = true ∧ o.gz_index_path ≠ "" ∧ p = o.gz_index_path ∧ s = 1048576) ∧
  (Call.extract_all ∈ r → w.is_gzfile = true → o.gz_index_path ≠ "" →
    Call.create_gz_index o.gz_index_path 1048576 ∈ r)

/-- A call that is neither the construction of the engine, nor the building
of the index, nor the extraction. -/
def Call.other : Call → Bool
  | Call.new_UnTar _ _ _ _ => false
  | Call.create_gz_index _ _ => false
  | Call.extract_all => false
  | _ => true

/-- Every stage of `main` succeeds: the image is opened (raw mode) or the
image service and the image file are created, `make_extfs` succeeds when
`--mkfs` is given, `new_extfs` and `new_subfs` give a file system, the input
that is the source of the stream is opened, and `extract_all() >= 0`. -/
def all_stages_succeed (o : Options) (w : Collaborators) : Prop :=
  (o.raw = true → w.open_image = true) ∧
  (o.raw = false → w.create_image_service = true ∧ w.create_image_file = true) ∧
  (o.mkfs = true → 0 ≤ w.make_extfs) ∧
  w.new_extfs = true ∧ w.new_subfs = true ∧
  w.open_input = true ∧
  0 ≤ w.extract_all

/-- No `--checksum` was supplied, or the computed string is exactly the
supplied one. -/
def checksum_accepted (o : Options) (w : Collaborators) : Prop :=
  o.sha256_checksum = "" ∨ w.sha256_checksum = o.sha256_checksum

instance (o : Options) (w : Collaborators) : Decidable (all_stages_succeed o w) := by
  unfold all_stages_succeed; infer_instance

instance (o : Options) (w : Collaborators) : Decidable (checksum_accepted o w) := by
  unfold checksum_accepted; infer_instance

/-! ## The formatting loop -/

theorem store_length (b : CharBuf) (i : Nat) (c : Char) :
    (b.store i c).cells.length = b.cells.length := by
  unfold CharBuf.store
  split <;> simp

theorem store_inside (b : CharBuf) (i : Nat) (c : Char) (h : i < b.cells.length) :
    b.store i c = ⟨b.cells.set i c, b.oob⟩ := by
  simp [CharBuf.store, h]

theorem store_outside (b : CharBuf) (i : Nat) (c : Char) (h : b.cells.length ≤ i) :
    b.store i c = ⟨b.cells, b.oob ++ [(i, c)]⟩ := by
  simp [CharBuf.store, Nat.not_lt.mpr h]

theorem hexString_length (l : List Byte) : (hexString l).length = 2 * l.length := by
  induction l with
  | nil => rfl
  | cons b bs ih => simp [hexString] at ih ⊢; omega

theorem hexString_even (l : List Byte) (i : Nat) (h : i < l.length) :
    (hexString l)[2 * i]? = some (hexdigit ((l.getD i 0).val / 16)) := by
  induction l generalizing i with
  | nil => simp at h
  | cons b bs ih =>
    cases i with
    | zero => simp [hexString]
    | succ n =>
      have h2 : n < bs.length := by simpa using h
      have := ih n h2
      simp only [hexString, List.map_cons, List.flatten_cons] at this ⊢
      rw [show 2 * (n + 1) = 2 * n + 1 + 1 by ring]
      simpa using this

theorem hexString_odd (l : List Byte) (i : Nat) (h : i < l.length) :
    (hexString l)[2 * i + 1]? = some (hexdigit ((l.getD i 0).val % 16)) := by
  induction l generalizing i with
  | nil => simp at h
  | cons b bs ih =>
    cases i with
    | zero => simp [hexString]
    | succ n =>
      have h2 : n < bs.length := by simpa using h
      have := ih n h2
      simp only [hexString, List.map_cons, List.flatten_cons] at this ⊢
      rw [show 2 * (n + 1) + 1 = (2 * n + 1) + 1 + 1 by ring]
      simpa using this


theorem sprintf_inside (b : CharBuf) (off : Nat) (v : Byte) (h : off + 2 < b.cells.length) :
    sprintf_02x b off v =
      ⟨((b.cells.set off (hexdigit (v.val / 16))).set (off + 1) (hexdigit (v.val % 16))).set
        (off + 2) (Char.ofNat 0), b.oob⟩ := by
  unfold sprintf_02x
  rw [store_inside b off _ (by omega), store_inside _ (off + 1) _ (by simp; omega),
    store_inside _ (off + 2) _ (by simp; omega)]

theorem sprintf_last (b : CharBuf) (off : Nat) (v : Byte) (h : off + 2 = b.cells.length) :
    sprintf_02x b off v =
      ⟨(b.cells.set off (hexdigit (v.val / 16))).set (off + 1) (hexdigit (v.val % 16)),
        b.oob ++ [(off + 2, Char.ofNat 0)]⟩ := by
  unfold sprintf_02x
  rw [store_inside b off _ (by omega), store_inside _ (off + 1) _ (by simp; omega),
    store_outside _ (off + 2) _ (by simp; omega)]

/-- One turn of the loop that stays inside the array. -/
theorem sprintf_step (b : CharBuf) (n : Nat) (v : Byte) (h : n * 2 + 2 < b.cells.length) :
    (sprintf_02x b (n * 2) v).cells.length = b.cells.length ∧
    (sprintf_02x b (n * 2) v).oob = b.oob ∧
    (∀ j, j < 2 * n → (sprintf_02x b (n * 2) v).cells[j]? = b.cells[j]?) ∧
    (sprintf_02x b (n * 2) v).cells[2 * n]? = some (hexdigit (v.val / 16)) ∧
    (sprintf_02x b (n * 2) v).cells[2 * n + 1]? = some (hexdigit (v.val % 16)) := by
  rw [sprintf_inside b (n * 2) v h]
  refine ⟨by simp, rfl, ?_, ?_, ?_⟩
  · intro j hj
    simp only [List.getElem?_set]
    rw [if_neg (by omega), if_neg (by omega), if_neg (by omega)]
  · simp only [List.getElem?_set]
    rw [if_neg (by omega), if_neg (by omega), if_pos (by omega)]
    simp; omega
  · simp only [List.getElem?_set]
    rw [if_neg (by omega), if_pos (by omega)]
    simp; omega

/-- The last turn of the loop: the two digits land in the last two cells and
the terminating NUL lands one past the end. -/
theorem sprintf_step_last (b : CharBuf) (n : Nat) (v : Byte) (h : n * 2 + 2 = b.cells.length) :
    (sprintf_02x b (n * 2) v).cells.length = b.cells.length ∧
    (sprintf_02x b (n * 2) v).oob = b.oob ++ [(n * 2 + 2, Char.ofNat 0)] ∧
    (∀ j, j < 2 * n → (sprintf_02x b (n * 2) v).cells[j]? = b.cells[j]?) ∧
    (sprintf_02x b (n * 2) v).cells[2 * n]? = some (hexdigit (v.val / 16)) ∧
    (sprintf_02x b (n * 2) v).cells[2 * n + 1]? = some (hexdigit (v.val % 16)) := by
  rw [sprintf_last b (n * 2) v h]
  refine ⟨by simp, rfl, ?_, ?_, ?_⟩
  · intro j hj
    simp only [List.getElem?_set]
    rw [if_neg (by omega), if_neg (by omega)]
  · simp only [List.getElem?_set]
    rw [if_neg (by omega), if_pos (by omega)]
    simp; omega
  · simp only [List.getElem?_set]
    rw [if_pos (by omega)]
    simp; omega

/-- The loop body as a function of the turn. -/
theorem foldl_range_succ {α : Type} (f : α → Nat → α) (a : α) (n : Nat) :
    (List.range (n + 1)).foldl f a = f ((List.range n).foldl f a) n := by
  rw [List.range_succ, List.foldl_append]; rfl

/-- After `k` turns of the loop (`k < 32`), the first `2 * k` characters of
`res` are the digits of the first `k` bytes and no store has left the array. -/
theorem format_loop_upto (sha : List Byte) (hs : sha.length = 32) (res0 : List Char)
    (h0 : res0.length = 64) (k : Nat) (hk : k ≤ 31) :
    ((List.range k).foldl (fun acc i => sprintf_02x acc (i * 2) (sha.getD i 0))
        ⟨res0, []⟩).cells.length = 64 ∧
    ((List.range k).foldl (fun acc i => sprintf_02x acc (i * 2) (sha.getD i 0))
        ⟨res0, []⟩).oob = [] ∧
    ∀ j, j < 2 * k →
      ((List.range k).foldl (fun acc i => sprintf_02x acc (i * 2) (sha.getD i 0))
        ⟨res0, []⟩).cells[j]? = (hexString sha)[j]? := by
  induction k with
  | zero => exact ⟨h0, rfl, fun j hj => absurd hj (by omega)⟩
  | succ n ih =>
    obtain ⟨hl, ho, hj⟩ := ih (by omega)
    rw [foldl_range_succ]
    obtain ⟨s1, s2, s3, s4, s5⟩ := sprintf_step _ n (sha.getD n 0) (by rw [hl]; omega)
    refine ⟨s1.trans hl, s2.trans ho, ?_⟩
    intro j hjn
    by_cases hlt : j < 2 * n
    · rw [s3 j hlt, hj j hlt]
    · by_cases he : j = 2 * n
      · rw [he, s4, hexString_even sha n (by omega)]
      · have : j = 2 * n + 1 := by omega
        rw [this, s5, hexString_odd sha n (by omega)]

/-- The whole loop, from any initial content of `res`: the 64 cells hold the
hexadecimal digits of the digest, and exactly one store, the NUL of the last
`sprintf`, fell outside, at index 64. -/
theorem format_loop_eq (sha : Digest) (res0 : List Char) (h0 : res0.length = 64) :
    format_loop sha ⟨res0, []⟩ = ⟨hexString sha.1, [(64, Char.ofNat 0)]⟩ := by
  obtain ⟨hl, ho, hj⟩ := format_loop_upto sha.1 sha.2 res0 h0 31 (by omega)
  unfold format_loop SHA256_DIGEST_LENGTH
  rw [foldl_range_succ]
  obtain ⟨s1, s2, s3, s4, s5⟩ := sprintf_step_last _ 31 (sha.1.getD 31 0) (by rw [hl])
  have hcells : (sprintf_02x ((List.range 31).foldl
      (fun acc i => sprintf_02x acc (i * 2) (sha.1.getD i 0)) ⟨res0, []⟩) (31 * 2)
      (sha.1.getD 31 0)).cells = hexString sha.1 := by
    apply List.ext_getElem?
    intro j
    by_cases hlt : j < 2 * 31
    · rw [s3 j hlt, hj j hlt]
    · by_cases he : j = 2 * 31
      · rw [he, s4, hexString_even sha.1 31 (by rw [sha.2]; omega)]
      · by_cases he2 : j = 2 * 31 + 1
        · rw [he2, s5, hexString_odd sha.1 31 (by rw [sha.2]; omega)]
        · rw [List.getElem?_eq_none (by rw [s1, hl]; omega),
            List.getElem?_eq_none (by rw [hexString_length, sha.2]; omega)]
  have hoob : (sprintf_02x ((List.range 31).foldl
      (fun acc i => sprintf_02x acc (i * 2) (sha.1.getD i 0)) ⟨res0, []⟩) (31 * 2)
      (sha.1.getD 31 0)).oob = [(64, Char.ofNat 0)] := by
    rw [s2, ho]; rfl
  cases hres : sprintf_02x ((List.range 31).foldl
      (fun acc i => sprintf_02x acc (i * 2) (sha.1.getD i 0)) ⟨res0, []⟩) (31 * 2)
      (sha.1.getD 31 0) with
  | mk cells oob =>
    rw [hres] at hcells hoob
    simp only at hcells hoob
    rw [hcells, hoob]


/-! ## sha256_checksum, step by step -/

theorem res_decl_length : res_decl.cells.length = 64 := by
  simp [res_decl, SHA256_DIGEST_LENGTH]

theorem calc_result_eq {F Ctx : Type} (ssl : OpenSSL Ctx) (self : SHA256CheckedFile F Ctx)
    (warned : Bool) :
    SHA256CheckedFile.calc_result ssl self warned =
      ⟨"sha256:" ++ String.mk (hexString (ssl.SHA256_Final self.ctx).1.1), warned,
        [(64, Char.ofNat 0)], { self with ctx := (ssl.SHA256_Final self.ctx).2 }⟩ := by
  unfold SHA256CheckedFile.calc_result
  have h := format_loop_eq (ssl.SHA256_Final self.ctx).1 res_decl.cells res_decl_length
  have hr : (⟨res_decl.cells, []⟩ : CharBuf) = res_decl := rfl
  rw [hr] at h
  simp only [h]
  rw [List.take_of_length_le]
  rw [hexString_length, (ssl.SHA256_Final self.ctx).1.2, SHA256_DIGEST_LENGTH]

/-- The result of `sha256_checksum()` when `SHA256_Update` does not answer
with a negative value: the string is "sha256:" and the hexadecimal digits of
what `SHA256_Final` wrote. -/
theorem sha256_checksum_eq {F Ctx : Type} (ssl : OpenSSL Ctx) (inner : IFile F)
    (self : SHA256CheckedFile F Ctx)
    (hok : (inner.read self.m_file (64 * 1024)).rc > 0 →
      0 ≤ (ssl.SHA256_Update self.ctx (inner.read self.m_file (64 * 1024)).bytes).1) :
    SHA256CheckedFile.sha256_checksum ssl inner self =
      ⟨"sha256:" ++ String.mk (hexString (ssl.SHA256_Final (self.drained ssl inner)).1.1),
        decide ((inner.read self.m_file (64 * 1024)).rc = 64 * 1024),
        [(64, Char.ofNat 0)],
        { m_file := (inner.read self.m_file (64 * 1024)).file,
          ctx := (ssl.SHA256_Final (self.drained ssl inner)).2,
          total_read := self.total_read }⟩ := by
  unfold SHA256CheckedFile.sha256_checksum SHA256CheckedFile.drained
  by_cases hrc : (inner.read self.m_file (64 * 1024)).rc > 0
  · have hb : (inner.read self.m_file (64 * 1024)).bytes =
        (inner.read self.m_file (64 * 1024)).buf.take
          (inner.read self.m_file (64 * 1024)).rc.toNat := by
      simp [ReadResult.bytes, hrc]
    have hok2 := hok hrc
    rw [hb] at hok2
    simp only [hrc, if_true, not_lt.mpr hok2, if_false, calc_result_eq, hb]
  · simp only [hrc, if_false, calc_result_eq]

theorem hexdigit_mem (n : Nat) (h : n < 16) : hexdigit n ∈ "0123456789abcdef".data := by
  interval_cases n <;> decide

theorem hexString_mem (l : List Byte) : ∀ c ∈ hexString l, c ∈ "0123456789abcdef".data := by
  intro c hc
  simp only [hexString, List.mem_flatten, List.mem_map] at hc
  obtain ⟨p, ⟨b, _, rfl⟩, hcp⟩ := hc
  simp only [List.mem_cons, List.mem_singleton, List.not_mem_nil, or_false] at hcp
  rcases hcp with rfl | rfl
  · exact hexdigit_mem _ (by omega)
  · exact hexdigit_mem _ (by omega)

/-- C4. Whenever `sha256_checksum()` does not hit a digest error, that is
whenever `SHA256_Update` on the drained bytes does not answer with a negative
value, the returned string is 71 characters long, starts with the 7 characters
"sha256:", and for every `i < 32` the characters at positions `7 + 2 * i` and
`8 + 2 * i` are the high and the low lowercase hexadecimal digit of byte `i` of
the digest `SHA256_Final` wrote; all 64 of them are among `0-9a-f`. -/
theorem C4_checksum_string_form {F Ctx : Type} (ssl : OpenSSL Ctx) (inner : IFile F)
    (self : SHA256CheckedFile F Ctx)
    (hok : (inner.read self.m_file (64 * 1024)).rc > 0 →
      0 ≤ (ssl.SHA256_Update self.ctx (inner.read self.m_file (64 * 1024)).bytes).1) :
    (SHA256CheckedFile.sha256_checksum ssl inner self).value.length = 71 ∧
    (SHA256CheckedFile.sha256_checksum ssl inner self).value.data.take 7 = "sha256:".data ∧
    (∀ i, i < 32 →
      (SHA256CheckedFile.sha256_checksum ssl inner self).value.data[7 + 2 * i]? =
        some (hexdigit (((ssl.SHA256_Final (self.drained ssl inner)).1.1.getD i 0).val / 16)) ∧
      (SHA256CheckedFile.sha256_checksum ssl inner self).value.data[8 + 2 * i]? =
        some (hexdigit (((ssl.SHA256_Final (self.drained ssl inner)).1.1.getD i 0).val % 16))) ∧
    (∀ c ∈ (SHA256CheckedFile.sha256_checksum ssl inner self).value.data.drop 7,
      c ∈ "0123456789abcdef".data) := by
  rw [sha256_checksum_eq ssl inner self hok]
  have hd : ("sha256:" ++ String.mk (hexString (ssl.SHA256_Final (self.drained ssl inner)).1.1)).data
      = "sha256:".data ++ hexString (ssl.SHA256_Final (self.drained ssl inner)).1.1 := by
    simp [String.data_append]
  have h7 : "sha256:".data.length = 7 := by decide
  have hlen := hexString_length (ssl.SHA256_Final (self.drained ssl inner)).1.1
  have h32 := (ssl.SHA256_Final (self.drained ssl inner)).1.2
  refine ⟨?_, ?_, ?_, ?_⟩
  · show String.length _ = 71
    rw [String.length, hd, List.length_append, h7, hlen, h32]
  · show List.take 7 (String.data _) = _
    rw [hd, List.take_left' h7]
  · intro i hi
    show (String.data _)[7 + 2 * i]? = _ ∧ (String.data _)[8 + 2 * i]? = _
    rw [hd]
    constructor
    · rw [List.getElem?_append_right (by rw [h7]; omega), h7,
        show 7 + 2 * i - 7 = 2 * i by omega, hexString_even _ i (by rw [h32]; exact hi)]
    · rw [List.getElem?_append_right (by rw [h7]; omega), h7,
        show 8 + 2 * i - 7 = 2 * i + 1 by omega, hexString_odd _ i (by rw [h32]; exact hi)]
  · intro c hc
    change c ∈ List.drop 7 (String.data _) at hc
    rw [hd, List.drop_left' h7] at hc
    exact hexString_mem _ c hc

set_option maxRecDepth 100000 in
/-- C4 at a concrete stream: the inner file holds "abc", nothing was read
before, `sha256_checksum()` drains the three bytes. -/
theorem C4_checksum_string_form_witness :
    (SHA256CheckedFile.sha256_checksum FIPS180.sha256 (chunkedFile 4)
      (SHA256CheckedFile.ctor FIPS180.sha256 [97, 98, 99])).value =
      "sha256:ba7816bf8f01cfea414140de5dae2223b00361a396177a9cb410ff61f20015ad" ∧
    (SHA256CheckedFile.sha256_checksum FIPS180.sha256 (chunkedFile 4)
      (SHA256CheckedFile.ctor FIPS180.sha256 [97, 98, 99])).value.length = 71 :=
  ⟨by decide,
    (C4_checksum_string_form FIPS180.sha256 (chunkedFile 4)
      (SHA256CheckedFile.ctor FIPS180.sha256 [97, 98, 99]) (fun _ => by decide)).1⟩

/-- C10, the code at the failing turn. `res` has 64 cells and `sha` has 32.
In every turn `i < 32` of the formatting loop the byte read is `sha[i]` with
`i < 32` and the two digits go to indices `2 * i` and `2 * i + 1`, inside
`res`; but the terminating NUL of `sprintf` goes to index `2 * i + 2`, which
for `i = 31` is 64: whatever the digest, exactly one store of the loop falls
outside `res`, the NUL at index 64: the first 31 turns stay inside, the last
one does not. So it is for `sha256_checksum()` on an empty inner stream. -/
theorem C10_sprintf_writes_past_res (sha : Digest) :
    res_decl.cells.length = 64 ∧ sha.1.length = 32 ∧
    (∀ i ∈ List.range SHA256_DIGEST_LENGTH, i < sha.1.length ∧ i * 2 + 1 < res_decl.cells.length) ∧
    (format_loop sha res_decl).oob = [(64, Char.ofNat 0)] ∧
    ((List.range 31).foldl (fun acc i => sprintf_02x acc (i * 2) (sha.1.getD i 0))
      res_decl).oob = [] ∧
    (sprintf_02x ((List.range 31).foldl (fun acc i => sprintf_02x acc (i * 2) (sha.1.getD i 0))
      res_decl) (31 * 2) (sha.1.getD 31 0)).oob = [(31 * 2 + 2, Char.ofNat 0)] ∧
    (SHA256CheckedFile.sha256_checksum FIPS180.sha256 (chunkedFile 4)
      (SHA256CheckedFile.ctor FIPS180.sha256 [])).oob = [(64, Char.ofNat 0)] := by
  have hfmt := format_loop_eq sha res_decl.cells res_decl_length
  have hr : (⟨res_decl.cells, []⟩ : CharBuf) = res_decl := rfl
  rw [hr] at hfmt
  obtain ⟨hl, ho, _⟩ := format_loop_upto sha.1 sha.2 res_decl.cells res_decl_length 31
    (Nat.le_refl 31)
  rw [hr] at hl ho
  refine ⟨res_decl_length, sha.2, ?_, ?_, ho, ?_, ?_⟩
  · intro i hi
    rw [List.mem_range, SHA256_DIGEST_LENGTH] at hi
    rw [sha.2, res_decl_length]
    omega
  · rw [hfmt]
  · rw [(sprintf_step_last _ 31 (sha.1.getD 31 0) (by rw [hl])).2.1, ho]
    rfl
  · rw [sha256_checksum_eq _ _ _ (fun _ => by decide)]

/-! ## read, one call and many -/

theorem bytes_of_pos {F : Type} (r : ReadResult F) (h : r.rc > 0) :
    r.bytes = r.buf.take r.rc.toNat := by
  simp [ReadResult.bytes, h]

theorem bytes_of_nonpos {F : Type} (r : ReadResult F) (h : ¬ r.rc > 0) : r.bytes = [] := by
  simp [ReadResult.bytes, h]

/-- A read whose inner read returns `rc <= 0` returns that `rc` and touches
nothing but `m_file`. -/
theorem read_of_nonpos {F Ctx : Type} (ssl : OpenSSL Ctx) (inner : IFile F)
    (self : SHA256CheckedFile F Ctx) (count : Nat) (h : ¬ (inner.read self.m_file count).rc > 0) :
    SHA256CheckedFile.read ssl inner self count =
      ⟨(inner.read self.m_file count).rc, (inner.read self.m_file count).buf,
        { self with m_file := (inner.read self.m_file count).file }⟩ := by
  simp only [SHA256CheckedFile.read, h, if_false]

/-- A read whose inner read returns `rc > 0`, when `SHA256_Update` does not
answer with a negative value: `rc` is returned and the bytes are absorbed. -/
theorem read_of_pos {F Ctx : Type} (ssl : OpenSSL Ctx) (inner : IFile F)
    (self : SHA256CheckedFile F Ctx) (count : Nat) (h : (inner.read self.m_file count).rc > 0)
    (hok : 0 ≤ (ssl.SHA256_Update self.ctx (inner.read self.m_file count).bytes).1) :
    SHA256CheckedFile.read ssl inner self count =
      ⟨(inner.read self.m_file count).rc, (inner.read self.m_file count).buf,
        { self with m_file := (inner.read self.m_file count).file,
                    ctx := (ssl.SHA256_Update self.ctx (inner.read self.m_file count).bytes).2 }⟩ := by
  rw [bytes_of_pos _ h] at hok ⊢
  simp only [SHA256CheckedFile.read, h, if_true, not_lt.mpr hok, if_false]

theorem conforms_nonneg {Ctx : Type} {ssl : OpenSSL Ctx} (hssl : ssl.Conforms) (c : Ctx)
    (d : List Byte) : 0 ≤ (ssl.SHA256_Update c d).1 := by
  rcases hssl.ret c d with h | h <;> omega

/-- With a conforming library every read returns the inner `rc` and buffer,
and the context has absorbed the bytes handed out. -/
theorem read_conforms {F Ctx : Type} (ssl : OpenSSL Ctx) (hssl : ssl.Conforms) (inner : IFile F)
    (self : SHA256CheckedFile F Ctx) (count : Nat) :
    SHA256CheckedFile.read ssl inner self count =
      ⟨(inner.read self.m_file count).rc, (inner.read self.m_file count).buf,
        ⟨(inner.read self.m_file count).file,
         (ssl.SHA256_Update self.ctx (inner.read self.m_file count).bytes).2,
         self.total_read⟩⟩ := by
  by_cases h : (inner.read self.m_file count).rc > 0
  · rw [read_of_pos ssl inner self count h (conforms_nonneg hssl _ _)]
  · rw [read_of_nonpos ssl inner self count h, bytes_of_nonpos _ h, hssl.update_nil]

theorem returnedBytes_cons {F : Type} (r : ReadResult F) (rs : List (ReadResult F)) :
    returnedBytes (r :: rs) = r.bytes ++ returnedBytes rs := by
  simp [returnedBytes]

/-- Many reads through the wrapper against the same reads on the inner file. -/
theorem run_conforms {F Ctx : Type} (ssl : OpenSSL Ctx) (hssl : ssl.Conforms) (inner : IFile F)
    (cs : List Nat) (self : SHA256CheckedFile F Ctx) :
    ((SHA256CheckedFile.asIFile ssl inner).run self cs).map (fun r => (r.rc, r.buf)) =
      (inner.run self.m_file cs).map (fun r => (r.rc, r.buf)) ∧
    (SHA256CheckedFile.asIFile ssl inner).after self cs =
      ⟨inner.after self.m_file cs,
       (ssl.SHA256_Update self.ctx (returnedBytes (inner.run self.m_file cs))).2,
       self.total_read⟩ := by
  induction cs generalizing self with
  | nil => simp [IFile.run, IFile.after, returnedBytes, hssl.update_nil]
  | cons c cs ih =>
    have hr := read_conforms ssl hssl inner self c
    have ih2 := ih ((SHA256CheckedFile.read ssl inner self c).file)
    simp only [IFile.run, IFile.after, SHA256CheckedFile.asIFile, List.map_cons] at ih2 ⊢
    rw [hr] at ih2 ⊢
    simp only at ih2 ⊢
    rw [returnedBytes_cons, ← hssl.update_append]
    exact ⟨by rw [ih2.1], ih2.2⟩

theorem run_bytes_eq {F G : Type} (rs : List (ReadResult F)) (rs2 : List (ReadResult G))
    (h : rs.map (fun r => (r.rc, r.buf)) = rs2.map (fun r => (r.rc, r.buf))) :
    returnedBytes rs = returnedBytes rs2 := by
  induction rs generalizing rs2 with
  | nil =>
    cases rs2 with
    | nil => rfl
    | cons b bs => simp at h
  | cons a as ih =>
    cases rs2 with
    | nil => simp at h
    | cons b bs =>
      simp only [List.map_cons, List.cons.injEq, Prod.mk.injEq] at h
      rw [returnedBytes_cons, returnedBytes_cons, ih bs h.2]
      simp [ReadResult.bytes, h.1.1, h.1.2]

/-! ## The reference library conforms -/

set_option maxRecDepth 100000 in
/-- The table `K` is what FIPS 180-4 defines it to be. -/
theorem K_eq_cube_roots : FIPS180.K = FIPS180.primes.map (FIPS180.fracRoot 3) := by
  decide

set_option maxRecDepth 100000 in
/-- The table `H0` is what FIPS 180-4 defines it to be. -/
theorem H0_eq_square_roots :
    FIPS180.H0 = (FIPS180.primes.take 8).map (FIPS180.fracRoot 2) := by
  decide

set_option maxRecDepth 100000 in
/-- The instance on the test vectors of the standard: the empty message and "abc". -/
theorem sha256_test_vectors :
    hexString (FIPS180.sha256.digest []).1 =
      "e3b0c44298fc1c149afbf4c8996fb92427ae41e4649b934ca495991b7852b855".data ∧
    hexString (FIPS180.sha256.digest [97, 98, 99]).1 =
      "ba7816bf8f01cfea414140de5dae2223b00361a396177a9cb410ff61f20015ad".data := by
  decide

theorem sha256_conforms : FIPS180.sha256.Conforms where
  ret := fun _ _ => Or.inl rfl
  update_nil := fun _ => rfl
  update_append := fun c a b => by
    simp [FIPS180.sha256, List.foldl_append]

theorem chunkedFile_isStream (cap : Nat) : IsStream (chunkedFile cap) id where
  front := fun s n => by
    have hm : min n (min cap s.length) ≤ s.length := by omega
    simp only [chunkedFile, ReadResult.bytes, id]
    generalize min n (min cap s.length) = m at hm
    rw [Int.toNat_ofNat]
    by_cases h : (m : Int) > 0
    · rw [if_pos h, List.take_append_of_le_length (by simp [hm]), List.take_take, min_self]
    · have h0 : m = 0 := by omega
      rw [if_neg h, h0]; rfl
  rest := fun s n => by
    simp only [chunkedFile, id]
    rw [Int.toNat_ofNat]

/-! ## The claims on read and sha256_checksum -/

/-- C2. For every sequence of `read` calls on a freshly constructed
`SHA256CheckedFile` over a library that conforms to the OpenSSL documentation:
each call returns exactly the `rc` (and hands out the buffer) of the inner
file's read; afterwards the accumulator is the SHA-256 context that has absorbed
exactly the concatenation, in call order, of the first `rc` bytes of each buffer
of the calls with `rc > 0`; and a call with `rc <= 0` leaves the accumulator
unchanged. -/
theorem C2_read_returns_rc_and_absorbs {F Ctx : Type} (ssl : OpenSSL Ctx) (hssl : ssl.Conforms)
    (inner : IFile F) (file : F) (cs : List Nat) :
    ((SHA256CheckedFile.asIFile ssl inner).run (SHA256CheckedFile.ctor ssl file) cs).map
        (fun r => (r.rc, r.buf)) = (inner.run file cs).map (fun r => (r.rc, r.buf)) ∧
    ((SHA256CheckedFile.asIFile ssl inner).after (SHA256CheckedFile.ctor ssl file) cs).ctx =
      ssl.absorb (returnedBytes (inner.run file cs)) ∧
    (∀ (g : SHA256CheckedFile F Ctx) (count : Nat), (inner.read g.m_file count).rc ≤ 0 →
      (SHA256CheckedFile.read ssl inner g count).rc = (inner.read g.m_file count).rc ∧
      (SHA256CheckedFile.read ssl inner g count).file.ctx = g.ctx) := by
  obtain ⟨h1, h2⟩ := run_conforms ssl hssl inner cs (SHA256CheckedFile.ctor ssl file)
  refine ⟨h1, ?_, ?_⟩
  · rw [h2]; rfl
  · intro g count hle
    rw [read_of_nonpos ssl inner g count (by omega)]
    exact ⟨rfl, rfl⟩

set_option maxRecDepth 100000 in
/-- C2 at a concrete stream: five bytes read in chunks of at most two through
reads of 3, 3, 3 and 3 bytes. -/
theorem C2_read_returns_rc_and_absorbs_witness :
    (((SHA256CheckedFile.asIFile FIPS180.sha256 (chunkedFile 2)).run
        (SHA256CheckedFile.ctor FIPS180.sha256 [1, 2, 3, 4, 5]) [3, 3, 3, 3]).map
        (fun r => r.rc) = [2, 2, 1, 0]) ∧
    ((SHA256CheckedFile.asIFile FIPS180.sha256 (chunkedFile 2)).after
        (SHA256CheckedFile.ctor FIPS180.sha256 [1, 2, 3, 4, 5]) [3, 3, 3, 3]).ctx =
      FIPS180.sha256.absorb [1, 2, 3, 4, 5] := by
  have h := C2_read_returns_rc_and_absorbs FIPS180.sha256 sha256_conforms (chunkedFile 2)
    [1, 2, 3, 4, 5] [3, 3, 3, 3]
  refine ⟨by decide, ?_⟩
  rw [h.2.1]
  decide

/-- C3. `sha256_checksum()` on an object whose accumulator has absorbed `prev`
(all bytes returned by the earlier reads), over a conforming library, performs
exactly one more read on the inner file, asking for `64*1024 = 65536` bytes
(the inner file is left as that one read leaves it, and a recording inner file
has recorded exactly one more request, of 65536); when the inner file honours
the request it absorbs at most 65536 bytes; it absorbs exactly the bytes that
read returned (none when it returned `rc <= 0`); and it returns "sha256:"
followed by the hexadecimal digits of the digest of `prev` followed by those
drained bytes: nothing else of the inner stream contributes to the result. -/
theorem C3_checksum_drains_one_read {F Ctx : Type} (ssl : OpenSSL Ctx) (hssl : ssl.Conforms)
    (inner : IFile F) (self : SHA256CheckedFile F Ctx) (prev : List Byte)
    (hprev : self.ctx = ssl.absorb prev) :
    (SHA256CheckedFile.sha256_checksum ssl inner self).file.m_file =
      (inner.read self.m_file 65536).file ∧
    (∀ log : List Nat,
      (SHA256CheckedFile.sha256_checksum ssl inner.logged
        ⟨(self.m_file, log), self.ctx, self.total_read⟩).file.m_file.2 = log ++ [65536]) ∧
    ((inner.read self.m_file 65536).rc ≤ 65536 →
      (inner.read self.m_file 65536).bytes.length ≤ 65536) ∧
    ((inner.read self.m_file 65536).rc ≤ 0 → (inner.read self.m_file 65536).bytes = []) ∧
    self.drained ssl inner = ssl.absorb (prev ++ (inner.read self.m_file 65536).bytes) ∧
    (SHA256CheckedFile.sha256_checksum ssl inner self).value =
      "sha256:" ++ String.mk
        (hexString (ssl.digest (prev ++ (inner.read self.m_file 65536).bytes)).1) := by
  have hd : self.drained ssl inner = ssl.absorb (prev ++ (inner.read self.m_file 65536).bytes) := by
    unfold SHA256CheckedFile.drained
    rw [show 64 * 1024 = 65536 from rfl]
    by_cases h : (inner.read self.m_file 65536).rc > 0
    · rw [if_pos h, hprev, OpenSSL.absorb, hssl.update_append]; rfl
    · rw [if_neg h, bytes_of_nonpos _ h, List.append_nil, hprev]
  refine ⟨?_, ?_, ?_, ?_, hd, ?_⟩
  · rw [sha256_checksum_eq ssl inner self (fun _ => conforms_nonneg hssl _ _)]
  · intro log
    rw [sha256_checksum_eq ssl inner.logged _ (fun _ => conforms_nonneg hssl _ _)]
    rfl
  · intro hle
    unfold ReadResult.bytes
    split
    · rw [List.length_take]; omega
    · simp
  · intro hle
    exact bytes_of_nonpos _ (by omega)
  · rw [sha256_checksum_eq ssl inner self (fun _ => conforms_nonneg hssl _ _), hd]
    rfl

set_option maxRecDepth 100000 in
/-- C3 at a concrete stream: "ab" has been read, the inner file still holds
"c" and two more bytes, and hands out one byte per read. -/
theorem C3_checksum_drains_one_read_witness :
    (SHA256CheckedFile.sha256_checksum FIPS180.sha256 (chunkedFile 1)
      ⟨[99, 0, 0], FIPS180.sha256.absorb [97, 98], 0⟩).value =
      "sha256:ba7816bf8f01cfea414140de5dae2223b00361a396177a9cb410ff61f20015ad" ∧
    (SHA256CheckedFile.sha256_checksum FIPS180.sha256 (chunkedFile 1)
      ⟨[99, 0, 0], FIPS180.sha256.absorb [97, 98], 0⟩).file.m_file = [0, 0] := by
  have h := C3_checksum_drains_one_read FIPS180.sha256 sha256_conforms (chunkedFile 1)
    ⟨[99, 0, 0], FIPS180.sha256.absorb [97, 98], 0⟩ [97, 98] rfl
  refine ⟨?_, ?_⟩
  · rw [h.2.2.2.2.2]; decide
  · rw [h.1]; decide

/-- The string `sha256_checksum()` returns, in terms of what was absorbed
before and what the draining read returned. -/
theorem checksum_value {F Ctx : Type} (ssl : OpenSSL Ctx) (hssl : ssl.Conforms)
    (inner : IFile F) (self : SHA256CheckedFile F Ctx) (prev : List Byte)
    (hprev : self.ctx = ssl.absorb prev) :
    (SHA256CheckedFile.sha256_checksum ssl inner self).value =
      "sha256:" ++ String.mk
        (hexString (ssl.digest (prev ++ (inner.read self.m_file 65536).bytes)).1) := by
  rw [sha256_checksum_eq ssl inner self (fun _ => conforms_nonneg hssl _ _)]
  unfold SHA256CheckedFile.drained
  rw [show 64 * 1024 = 65536 from rfl]
  by_cases h : (inner.read self.m_file 65536).rc > 0
  · rw [if_pos h, hprev, OpenSSL.absorb, hssl.update_append]; rfl
  · rw [if_neg h, bytes_of_nonpos _ h, List.append_nil, hprev]; rfl

/-- On a byte stream, what the reads handed out followed by what remains is
what was there at the start. -/
theorem stream_run {F : Type} (inner : IFile F) (remaining : F → List Byte)
    (hs : IsStream inner remaining) (cs : List Nat) (s : F) :
    returnedBytes (inner.run s cs) ++ remaining (inner.after s cs) = remaining s := by
  induction cs generalizing s with
  | nil => simp [IFile.run, IFile.after, returnedBytes]
  | cons c cs ih =>
    simp only [IFile.run, IFile.after]
    rw [returnedBytes_cons, List.append_assoc, ih, hs.front, hs.rest, List.take_append_drop]

/-- C1, as the code has it. For every inner byte stream whose bytes are
`content ++ trailer`, however the inner reads split the data, if a caller has
read exactly `content` through `SHA256CheckedFile::read` and then calls
`sha256_checksum()`, and the one draining read of that call returns the whole
trailer (`rc = trailer.length`, which needs a trailer of at most 65536 bytes
handed out in one piece), then the returned string is "sha256:" followed by the
hexadecimal digits of the SHA-256 digest computed directly over
`content ++ trailer`. -/
theorem C1_checksum_roundtrip_one_chunk {F Ctx : Type} (ssl : OpenSSL Ctx) (hssl : ssl.Conforms)
    (inner : IFile F) (remaining : F → List Byte) (hs : IsStream inner remaining)
    (file : F) (content trailer : List Byte) (cs : List Nat)
    (hfile : remaining file = content ++ trailer)
    (hread : returnedBytes
      ((SHA256CheckedFile.asIFile ssl inner).run (SHA256CheckedFile.ctor ssl file) cs) = content)
    (hdrain : (inner.read
      ((SHA256CheckedFile.asIFile ssl inner).after (SHA256CheckedFile.ctor ssl file) cs).m_file
      65536).rc = trailer.length) :
    (SHA256CheckedFile.sha256_checksum ssl inner
      ((SHA256CheckedFile.asIFile ssl inner).after (SHA256CheckedFile.ctor ssl file) cs)).value =
      "sha256:" ++ String.mk (hexString (ssl.digest (content ++ trailer)).1) := by
  obtain ⟨h1, h2⟩ := run_conforms ssl hssl inner cs (SHA256CheckedFile.ctor ssl file)
  have hret : returnedBytes (inner.run file cs) = content := by
    rw [← hread]; exact (run_bytes_eq _ _ h1).symm
  have hrem : remaining (inner.after file cs) = trailer := by
    have h := stream_run inner remaining hs cs file
    rw [hret, hfile] at h
    exact List.append_cancel_left h
  rw [h2] at hdrain ⊢
  replace hdrain : (inner.read (inner.after file cs) 65536).rc = trailer.length := hdrain
  have hb : (inner.read (inner.after file cs) 65536).bytes = trailer := by
    rw [hs.front, hdrain, hrem, Int.toNat_ofNat, List.take_length]
  have hctx : (ssl.SHA256_Update (SHA256CheckedFile.ctor ssl file).ctx
      (returnedBytes (inner.run (SHA256CheckedFile.ctor ssl file).m_file cs))).2 =
      ssl.absorb content := by
    show (ssl.SHA256_Update ssl.SHA256_Init (returnedBytes (inner.run file cs))).2 = _
    rw [hret]; rfl
  have h3 := (checksum_value ssl hssl inner
    ⟨inner.after file cs, ssl.absorb content, (SHA256CheckedFile.ctor ssl file).total_read⟩
    content rfl)
  rw [hctx]
  show (SHA256CheckedFile.sha256_checksum ssl inner
    ⟨inner.after file cs, ssl.absorb content, (SHA256CheckedFile.ctor ssl file).total_read⟩).value = _
  rw [h3, hb]

set_option maxRecDepth 100000 in
/-- C1 at a concrete stream: "abc" and two bytes of padding, handed out in
chunks of at most two bytes; the caller reads "abc" with reads of 2 and 1
bytes, and the draining read returns both bytes of padding. -/
theorem C1_checksum_roundtrip_one_chunk_witness :
    returnedBytes ((SHA256CheckedFile.asIFile FIPS180.sha256 (chunkedFile 2)).run
      (SHA256CheckedFile.ctor FIPS180.sha256 [97, 98, 99, 0, 0]) [2, 1]) = [97, 98, 99] ∧
    ((chunkedFile 2).read ((SHA256CheckedFile.asIFile FIPS180.sha256 (chunkedFile 2)).after
      (SHA256CheckedFile.ctor FIPS180.sha256 [97, 98, 99, 0, 0]) [2, 1]).m_file 65536).rc = 2 ∧
    (SHA256CheckedFile.sha256_checksum FIPS180.sha256 (chunkedFile 2)
      ((SHA256CheckedFile.asIFile FIPS180.sha256 (chunkedFile 2)).after
        (SHA256CheckedFile.ctor FIPS180.sha256 [97, 98, 99, 0, 0]) [2, 1])).value =
      "sha256:" ++ String.mk (hexString (FIPS180.sha256.digest ([97, 98, 99] ++ [0, 0])).1) :=
  ⟨by decide, by decide,
    C1_checksum_roundtrip_one_chunk FIPS180.sha256 sha256_conforms (chunkedFile 2) id
      (chunkedFile_isStream 2) [97, 98, 99, 0, 0] [97, 98, 99] [0, 0] [2, 1] rfl
      (by decide) (by decide)⟩

set_option maxRecDepth 100000 in
/-- C1 fails as stated: the stream is "a" and two bytes of padding, and the
inner file hands out one byte per read.  The caller reads "a"; the one draining
read of `sha256_checksum()` gets the first byte of padding only, so the
returned string is the digest of "a" and one byte of padding, not the digest
of `content ++ trailer`. -/
theorem C1_counterexample_split_trailer :
    returnedBytes ((SHA256CheckedFile.asIFile FIPS180.sha256 (chunkedFile 1)).run
      (SHA256CheckedFile.ctor FIPS180.sha256 ([97] ++ [0, 0])) [1]) = [97] ∧
    (SHA256CheckedFile.sha256_checksum FIPS180.sha256 (chunkedFile 1)
      ((SHA256CheckedFile.asIFile FIPS180.sha256 (chunkedFile 1)).after
        (SHA256CheckedFile.ctor FIPS180.sha256 ([97] ++ [0, 0])) [1])).value =
      "sha256:" ++ String.mk (hexString (FIPS180.sha256.digest ([97] ++ [0])).1) ∧
    (SHA256CheckedFile.sha256_checksum FIPS180.sha256 (chunkedFile 1)
      ((SHA256CheckedFile.asIFile FIPS180.sha256 (chunkedFile 1)).after
        (SHA256CheckedFile.ctor FIPS180.sha256 ([97] ++ [0, 0])) [1])).value ≠
      "sha256:" ++ String.mk (hexString (FIPS180.sha256.digest ([97] ++ [0, 0])).1) := by
  decide

/-- The limit of the one draining read, on a byte stream: when the trailer is
longer than what that read returns, the digest covers `content` and the front
part of the trailer that read returned, and nothing after it. -/
theorem checksum_covers_first_chunk {F Ctx : Type} (ssl : OpenSSL Ctx) (hssl : ssl.Conforms)
    (inner : IFile F) (remaining : F → List Byte) (hs : IsStream inner remaining)
    (self : SHA256CheckedFile F Ctx) (content : List Byte)
    (hctx : self.ctx = ssl.absorb content) :
    (SHA256CheckedFile.sha256_checksum ssl inner self).value =
      "sha256:" ++ String.mk (hexString (ssl.digest (content ++
        (remaining self.m_file).take (inner.read self.m_file 65536).rc.toNat)).1) := by
  rw [checksum_value ssl hssl inner self content hctx, hs.front]

set_option maxRecDepth 100000 in
/-- C6, the code at a failing input. The inner read returns `rc = 1` with the
byte "a" and `SHA256_Update` answers 0, the failure value of OpenSSL: `read`
returns 1, not -1, because it tests the answer with `< 0`; and
`sha256_checksum()`, whose draining read gets that byte, returns a digest
string, not the empty string. -/
theorem C6_update_failure_not_surfaced :
    ((chunkedFile 4).read [97] 4).rc = 1 ∧
    (FIPS180.sha256_failing.SHA256_Update FIPS180.sha256_failing.SHA256_Init [97]).1 = 0 ∧
    (SHA256CheckedFile.read FIPS180.sha256_failing (chunkedFile 4)
      (SHA256CheckedFile.ctor FIPS180.sha256_failing [97]) 4).rc = 1 ∧
    (SHA256CheckedFile.sha256_checksum FIPS180.sha256_failing (chunkedFile 4)
      (SHA256CheckedFile.ctor FIPS180.sha256_failing [97])).value ≠ "" := by
  decide

/-- The same for every library and every inner file: a `SHA256_Update` that
answers 0 on a read with `rc > 0` goes unnoticed, the read returns `rc`. -/
theorem read_ignores_update_failure {F Ctx : Type} (ssl : OpenSSL Ctx) (inner : IFile F)
    (self : SHA256CheckedFile F Ctx) (count : Nat) (h : (inner.read self.m_file count).rc > 0)
    (hfail : (ssl.SHA256_Update self.ctx (inner.read self.m_file count).bytes).1 = 0) :
    (SHA256CheckedFile.read ssl inner self count).rc = (inner.read self.m_file count).rc := by
  rw [read_of_pos ssl inner self count h (by rw [hfail])]

/-- C7, as the code has it. `sha256_checksum()` keeps no record of having
finalized. On the object it leaves behind, a `read` whose inner read returns
`rc <= 0` leaves the accumulator unchanged, a `read` whose inner read returns
`rc > 0` applies `SHA256_Update` with the first `rc` bytes to the accumulator
`SHA256_Final` left (and keeps the result unless the answer is negative), and a
second `sha256_checksum()` whose `SHA256_Update` does not answer with a
negative value drains again and runs `SHA256_Final` again on the accumulator. -/
theorem C7_no_finalized_guard {F Ctx : Type} (ssl : OpenSSL Ctx) (inner : IFile F)
    (self : SHA256CheckedFile F Ctx) (count : Nat) :
    ((inner.read (SHA256CheckedFile.sha256_checksum ssl inner self).file.m_file count).rc ≤ 0 →
      (SHA256CheckedFile.read ssl inner
        (SHA256CheckedFile.sha256_checksum ssl inner self).file count).file.ctx =
        (SHA256CheckedFile.sha256_checksum ssl inner self).file.ctx) ∧
    ((inner.read (SHA256CheckedFile.sha256_checksum ssl inner self).file.m_file count).rc > 0 →
      (SHA256CheckedFile.read ssl inner
        (SHA256CheckedFile.sha256_checksum ssl inner self).file count).file.ctx =
        (ssl.SHA256_Update (SHA256CheckedFile.sha256_checksum ssl inner self).file.ctx
          (inner.read (SHA256CheckedFile.sha256_checksum ssl inner self).file.m_file
            count).bytes).2) ∧
    (((inner.read (SHA256CheckedFile.sha256_checksum ssl inner self).file.m_file
          (64 * 1024)).rc > 0 →
        0 ≤ (ssl.SHA256_Update (SHA256CheckedFile.sha256_checksum ssl inner self).file.ctx
          (inner.read (SHA256CheckedFile.sha256_checksum ssl inner self).file.m_file
            (64 * 1024)).bytes).1) →
      (SHA256CheckedFile.sha256_checksum ssl inner
        (SHA256CheckedFile.sha256_checksum ssl inner self).file).file.ctx =
        (ssl.SHA256_Final
          ((SHA256CheckedFile.sha256_checksum ssl inner self).file.drained ssl inner)).2) := by
  generalize (SHA256CheckedFile.sha256_checksum ssl inner self).file = g
  refine ⟨?_, ?_, ?_⟩
  · intro h
    rw [read_of_nonpos ssl inner g count (by omega)]
  · intro h
    rw [bytes_of_pos _ h]
    unfold SHA256CheckedFile.read
    simp only [h, if_true]
    split <;> rfl
  · intro h
    rw [sha256_checksum_eq ssl inner g h]

set_option maxRecDepth 100000 in
/-- C7 at a concrete stream: "ab" handed out one byte per read;
`sha256_checksum()` drains "a", the next read gets no byte at count 0 and
leaves the accumulator, the read after it gets "b" and changes it. -/
theorem C7_no_finalized_guard_witness :
    (SHA256CheckedFile.read FIPS180.sha256 (chunkedFile 1)
      (SHA256CheckedFile.sha256_checksum FIPS180.sha256 (chunkedFile 1)
        (SHA256CheckedFile.ctor FIPS180.sha256 [97, 98])).file 0).file.ctx =
      (SHA256CheckedFile.sha256_checksum FIPS180.sha256 (chunkedFile 1)
        (SHA256CheckedFile.ctor FIPS180.sha256 [97, 98])).file.ctx :=
  (C7_no_finalized_guard FIPS180.sha256 (chunkedFile 1)
    (SHA256CheckedFile.ctor FIPS180.sha256 [97, 98]) 0).1 (by decide)

set_option maxRecDepth 100000 in
/-- C7 fails as stated: on the stream "ab", handed out one byte per read,
`sha256_checksum()` drains "a" and finalizes; the following `read` gets "b"
(`rc = 1`) and the accumulator is no longer what the finalization left; a
second `sha256_checksum()` in place of that read changes it as well. -/
theorem C7_counterexample_update_after_final :
    (SHA256CheckedFile.read FIPS180.sha256 (chunkedFile 1)
      (SHA256CheckedFile.sha256_checksum FIPS180.sha256 (chunkedFile 1)
        (SHA256CheckedFile.ctor FIPS180.sha256 [97, 98])).file 1).rc = 1 ∧
    (SHA256CheckedFile.read FIPS180.sha256 (chunkedFile 1)
      (SHA256CheckedFile.sha256_checksum FIPS180.sha256 (chunkedFile 1)
        (SHA256CheckedFile.ctor FIPS180.sha256 [97, 98])).file 1).file.ctx ≠
      (SHA256CheckedFile.sha256_checksum FIPS180.sha256 (chunkedFile 1)
        (SHA256CheckedFile.ctor FIPS180.sha256 [97, 98])).file.ctx ∧
    (SHA256CheckedFile.sha256_checksum FIPS180.sha256 (chunkedFile 1)
      (SHA256CheckedFile.sha256_checksum FIPS180.sha256 (chunkedFile 1)
        (SHA256CheckedFile.ctor FIPS180.sha256 [97, 98])).file).file.ctx ≠
      (SHA256CheckedFile.sha256_checksum FIPS180.sha256 (chunkedFile 1)
        (SHA256CheckedFile.ctor FIPS180.sha256 [97, 98])).file.ctx := by
  decide

/-- C8, as the code has it. The field `total_read` is set to 0 by the
constructor and neither `read` nor `sha256_checksum()` writes it: it is 0
after every sequence of reads and after the final drain, whatever was
absorbed. -/
theorem C8_total_read_stays_zero {F Ctx : Type} (ssl : OpenSSL Ctx) (inner : IFile F)
    (file : F) (cs : List Nat) :
    ((SHA256CheckedFile.asIFile ssl inner).after (SHA256CheckedFile.ctor ssl file) cs).total_read
      = 0 ∧
    (SHA256CheckedFile.sha256_checksum ssl inner
      ((SHA256CheckedFile.asIFile ssl inner).after (SHA256CheckedFile.ctor ssl file)
        cs)).file.total_read = 0 := by
  have hread : ∀ (g : SHA256CheckedFile F Ctx) (c : Nat),
      (SHA256CheckedFile.read ssl inner g c).file.total_read = g.total_read := by
    intro g c
    unfold SHA256CheckedFile.read
    simp only
    split
    · split <;> rfl
    · rfl
  have hafter : ∀ (cs : List Nat) (g : SHA256CheckedFile F Ctx),
      ((SHA256CheckedFile.asIFile ssl inner).after g cs).total_read = g.total_read := by
    intro cs
    induction cs with
    | nil => intro g; rfl
    | cons c cs ih =>
      intro g
      simp only [IFile.after]
      rw [ih]
      exact hread g c
  have hsum : ∀ g : SHA256CheckedFile F Ctx,
      (SHA256CheckedFile.sha256_checksum ssl inner g).file.total_read = g.total_read := by
    intro g
    unfold SHA256CheckedFile.sha256_checksum SHA256CheckedFile.calc_result
    simp only
    split
    · split <;> rfl
    · rfl
  refine ⟨?_, ?_⟩
  · rw [hafter]; rfl
  · rw [hsum, hafter]; rfl

set_option maxRecDepth 100000 in
/-- C8 fails as stated: after one read that returns `rc = 3` and absorbs the
three bytes "abc", `total_read` is 0, not 3. -/
theorem C8_counterexample_total_read :
    positiveTotal ((chunkedFile 8).run [97, 98, 99] [8]) = 3 ∧
    ((SHA256CheckedFile.asIFile FIPS180.sha256 (chunkedFile 8)).after
      (SHA256CheckedFile.ctor FIPS180.sha256 [97, 98, 99]) [8]).ctx =
      FIPS180.sha256.absorb [97, 98, 99] ∧
    (((SHA256CheckedFile.asIFile FIPS180.sha256 (chunkedFile 8)).after
      (SHA256CheckedFile.ctor FIPS180.sha256 [97, 98, 99]) [8]).total_read : Int) ≠
      positiveTotal ((chunkedFile 8).run [97, 98, 99] [8]) := by
  decide

/-! ## main -/

theorem exit_fail (t : List Call) : exit (-1) t = ⟨255, t⟩ := by
  show (⟨((-1 : Int) % 256).toNat, t⟩ : Run) = ⟨255, t⟩
  rfl

theorem exit_ok (t : List Call) : exit 0 t = ⟨0, t⟩ := rfl

theorem isEmpty_eq_false_iff (s : String) : s.isEmpty = false ↔ s ≠ "" := by
  rw [Ne, ← String.isEmpty_iff]; simp

/-- Lines 187 to 206, the status and the place of the checksum call. -/
theorem main_untar_spec (o : Options) (w : Collaborators) (t : List Call)
    (ht : Call.sha256_checksum ∉ t) :
    ((main_untar o w t).status = 0 ↔ 0 ≤ w.extract_all ∧ checksum_accepted o w) ∧
    ((main_untar o w t).status = 0 ∨ (main_untar o w t).status = 255) ∧
    (Call.sha256_checksum ∈ (main_untar o w t).calls →
      0 ≤ w.extract_all ∧
      ∃ pre, (main_untar o w t).calls = pre ++ [Call.extract_all, Call.sha256_checksum] ∧
        Call.sha256_checksum ∉ pre) := by
  have ht0 : Call.sha256_checksum ∉ (if o.raw then t else t ++ [Call.get_base]) := by
    split <;> simp [ht]
  unfold main_untar checksum_accepted
  simp only [exit_fail, exit_ok]
  generalize (if o.raw = true then t else t ++ [Call.get_base]) = t0 at ht0 ⊢
  have hpre : Call.sha256_checksum ∉ t0 ++ [Call.new_UnTar 0 4096 (!o.raw && w.get_base)
      (o.gz_index_path != "")] := by simp [ht0]
  have hpre2 : Call.sha256_checksum ∉ t0 ++ [Call.new_UnTar 0 4096 (!o.raw && w.get_base)
      (o.gz_index_path != ""), Call.extract_all] := by simp [ht0]
  split_ifs with hx hc hm
  · refine ⟨?_, Or.inr rfl, fun hmem => absurd hmem hpre2⟩
    constructor
    · intro h; simp at h
    · intro h; omega
  · have hne := (isEmpty_eq_false_iff _).mp hc
    have hm2 : w.sha256_checksum ≠ o.sha256_checksum := by simpa using hm
    refine ⟨?_, Or.inr rfl, fun _ => ⟨by omega, _, by simp, hpre⟩⟩
    constructor
    · intro h; simp at h
    · intro h; rcases h.2 with h | h <;> contradiction
  · have hm2 : w.sha256_checksum = o.sha256_checksum := by simpa using hm
    exact ⟨⟨fun _ => ⟨by omega, Or.inr hm2⟩, fun _ => rfl⟩, Or.inl rfl,
      fun _ => ⟨by omega, _, by simp, hpre⟩⟩
  · have he : o.sha256_checksum = "" := by
      by_contra hne
      exact hc ((isEmpty_eq_false_iff _).mpr hne)
    exact ⟨⟨fun _ => ⟨by omega, Or.inl he⟩, fun _ => rfl⟩, Or.inl rfl,
      fun hmem => absurd hmem hpre2⟩

/-- Lines 166 to 185 either stop with `exit(-1)` at the input file or hand
over to the rest of `main` with calls that hold no checksum call. -/
theorem main_source_cases (o : Options) (w : Collaborators) (t : List Call)
    (ht : Call.sha256_checksum ∉ t) :
    (w.open_input = false ∧ ∃ t1, Call.sha256_checksum ∉ t1 ∧ main_source o w t = ⟨255, t1⟩) ∨
    (w.open_input = true ∧
      ∃ t1, Call.sha256_checksum ∉ t1 ∧ main_source o w t = main_untar o w t1) := by
  unfold main_source open_file
  cases hi : w.open_input with
  | false =>
    left
    refine ⟨rfl, _, ?_, by rw [if_pos rfl, exit_fail]⟩
    simp [ht]
  | true =>
    right
    refine ⟨rfl, _, ?_, by rw [if_neg (by simp)]⟩
    split_ifs <;> simp [ht]

/-- Lines 166 to 206. -/
theorem main_source_spec (o : Options) (w : Collaborators) (t : List Call)
    (ht : Call.sha256_checksum ∉ t) :
    ((main_source o w t).status = 0 ↔
      w.open_input = true ∧ 0 ≤ w.extract_all ∧ checksum_accepted o w) ∧
    ((main_source o w t).status = 0 ∨ (main_source o w t).status = 255) ∧
    (Call.sha256_checksum ∈ (main_source o w t).calls →
      0 ≤ w.extract_all ∧
      ∃ pre, (main_source o w t).calls = pre ++ [Call.extract_all, Call.sha256_checksum] ∧
        Call.sha256_checksum ∉ pre) := by
  rcases main_source_cases o w t ht with ⟨hi, t1, ht1, heq⟩ | ⟨hi, t1, ht1, heq⟩
  · rw [heq]
    exact ⟨⟨fun h => by simp at h, fun h => by simp [hi] at h⟩, Or.inr rfl,
      fun hmem => absurd hmem ht1⟩
  · rw [heq]
    have key := main_untar_spec o w t1 ht1
    refine ⟨?_, key.2.1, key.2.2⟩
    rw [key.1]
    simp [hi]

/-- Lines 143 to 164 either stop with `exit(-1)` or hand over to the rest of
`main` with calls that hold no checksum call. -/
theorem main_target_cases (o : Options) (w : Collaborators) (imgfile : Bool) (t : List Call)
    (ht : Call.sha256_checksum ∉ t) :
    (¬ (imgfile = true ∧ (o.mkfs = true → 0 ≤ w.make_extfs) ∧ w.new_extfs = true ∧
        w.new_subfs = true) ∧
      ∃ t1, Call.sha256_checksum ∉ t1 ∧ main_target o w imgfile t = ⟨255, t1⟩) ∨
    ((imgfile = true ∧ (o.mkfs = true → 0 ≤ w.make_extfs) ∧ w.new_extfs = true ∧
        w.new_subfs = true) ∧
      ∃ t1, Call.sha256_checksum ∉ t1 ∧ main_target o w imgfile t = main_source o w t1) := by
  have ht1 : Call.sha256_checksum ∉ (if o.mkfs then t ++ [Call.make_extfs] else t) := by
    split <;> simp [ht]
  unfold main_target
  simp only [exit_fail]
  generalize (if o.mkfs = true then t ++ [Call.make_extfs] else t) = t1 at ht1 ⊢
  by_cases h1 : imgfile = false
  · left
    rw [if_pos h1]
    exact ⟨fun h => by simp [h1] at h, t, ht, rfl⟩
  · rw [if_neg h1]
    by_cases h2 : o.mkfs = true ∧ w.make_extfs < 0
    · left
      rw [if_pos h2]
      refine ⟨fun h => ?_, t1, ht1, rfl⟩
      have := h.2.1 h2.1
      omega
    · rw [if_neg h2]
      by_cases h3 : w.new_extfs = false
      · left
        rw [if_pos h3]
        exact ⟨fun h => by simp [h3] at h, _, by simp [ht1], rfl⟩
      · rw [if_neg h3]
        by_cases h4 : w.new_subfs = false
        · left
          rw [if_pos h4]
          exact ⟨fun h => by simp [h4] at h, _, by simp [ht1], rfl⟩
        · right
          rw [if_neg h4]
          refine ⟨⟨by simpa using h1, fun hm => ?_, by simpa using h3, by simpa using h4⟩,
            _, by simp [ht1], rfl⟩
          by_contra hlt
          exact h2 ⟨hm, by omega⟩

/-- Lines 143 to 206. -/
theorem main_target_spec (o : Options) (w : Collaborators) (imgfile : Bool) (t : List Call)
    (ht : Call.sha256_checksum ∉ t) :
    ((main_target o w imgfile t).status = 0 ↔
      (imgfile = true ∧ (o.mkfs = true → 0 ≤ w.make_extfs) ∧ w.new_extfs = true ∧
        w.new_subfs = true) ∧ w.open_input = true ∧ 0 ≤ w.extract_all ∧
        checksum_accepted o w) ∧
    ((main_target o w imgfile t).status = 0 ∨ (main_target o w imgfile t).status = 255) ∧
    (Call.sha256_checksum ∈ (main_target o w imgfile t).calls →
      0 ≤ w.extract_all ∧
      ∃ pre, (main_target o w imgfile t).calls =
          pre ++ [Call.extract_all, Call.sha256_checksum] ∧
        Call.sha256_checksum ∉ pre) := by
  rcases main_target_cases o w imgfile t ht with ⟨hn, t1, ht1, heq⟩ | ⟨hy, t1, ht1, heq⟩
  · rw [heq]
    exact ⟨⟨fun h => by simp at h, fun h => absurd h.1 hn⟩, Or.inr rfl,
      fun hmem => absurd hmem ht1⟩
  · rw [heq]
    have key := main_source_spec o w t1 ht1
    refine ⟨?_, key.2.1, key.2.2⟩
    rw [key.1]
    exact ⟨fun h => ⟨hy, h⟩, fun h => h.2⟩

/-- C5. With `main` as a function of what its collaborators answer: the exit
status is 0 if and only if every stage succeeds (the image is opened in raw
mode, else the image service and the image file are created; `make_extfs`
when `--mkfs` is given; `new_extfs` and `new_subfs`; the input, source of the
stream, is opened; `extract_all() >= 0`) and either no `--checksum` was
supplied or the string `sha256_checksum()` returned is exactly the supplied
one; every other run, a checksum mismatch included, ends with status 255; and
`sha256_checksum()` is called only right after an `extract_all()` that
returned a value `>= 0`, as the last call of the run. -/
theorem C5_exit_status (o : Options) (w : Collaborators) :
    ((main o w).status = 0 ↔ all_stages_succeed o w ∧ checksum_accepted o w) ∧
    ((main o w).status = 0 ∨ (main o w).status = 255) ∧
    (Call.sha256_checksum ∈ (main o w).calls →
      0 ≤ w.extract_all ∧
      ∃ pre, (main o w).calls = pre ++ [Call.extract_all, Call.sha256_checksum] ∧
        Call.sha256_checksum ∉ pre) := by
  unfold main open_file all_stages_succeed
  cases hraw : o.raw with
  | true =>
    rw [if_pos rfl]
    cases himg : w.open_image with
    | false =>
      rw [if_pos rfl, exit_fail]
      exact ⟨⟨fun h => by simp at h, fun h => by simp at h⟩, Or.inr rfl,
        fun hmem => by simp at hmem⟩
    | true =>
      rw [if_neg (by simp)]
      have key := main_target_spec o w true
        ([] ++ [Call.open_localfile_adaptor o.image_config_path O_RDWR 0o644]) (by simp)
      refine ⟨?_, key.2.1, key.2.2⟩
      rw [key.1]
      simp
      tauto
  | false =>
    rw [if_neg (by simp)]
    cases hsvc : w.create_image_service with
    | false =>
      rw [if_pos rfl, exit_fail]
      exact ⟨⟨fun h => by simp at h, fun h => by simp at h⟩, Or.inr rfl,
        fun hmem => by simp at hmem⟩
    | true =>
      rw [if_neg (by simp)]
      have key := main_target_spec o w w.create_image_file
        [Call.create_image_service (if o.config_path.isEmpty then none else some o.config_path),
         Call.create_image_file o.image_config_path] (by simp)
      refine ⟨?_, key.2.1, key.2.2⟩
      rw [key.1]
      simp
      tauto

/-- Calls of the other kind in front change nothing to `EngineCalls`. -/
theorem engineCalls_append (o : Options) (w : Collaborators) (pre r : List Call)
    (hpre : ∀ x ∈ pre, x.other = true) (hr : EngineCalls o w r) :
    EngineCalls o w (pre ++ r) := by
  obtain ⟨h1, h2, h3⟩ := hr
  refine ⟨?_, ?_, ?_⟩
  · intro f b base m hmem
    rcases List.mem_append.mp hmem with h | h
    · exact absurd (hpre _ h) (by simp [Call.other])
    · exact h1 f b base m h
  · intro p s hmem
    rcases List.mem_append.mp hmem with h | h
    · exact absurd (hpre _ h) (by simp [Call.other])
    · exact h2 p s h
  · intro hmem hg hp
    rcases List.mem_append.mp hmem with h | h
    · exact absurd (hpre _ h) (by simp [Call.other])
    · exact List.mem_append_right _ (h3 h hg hp)

/-- A run that stops before the engine holds calls of the other kind only. -/
theorem engineCalls_of_other (o : Options) (w : Collaborators) (r : List Call)
    (hr : ∀ x ∈ r, x.other = true) : EngineCalls o w r := by
  have := engineCalls_append o w r [] hr ⟨by simp, by simp, by simp⟩
  simpa using this

/-- Lines 187 to 206: the calls added to those made before. -/
theorem main_untar_calls (o : Options) (w : Collaborators) (t : List Call) :
    ∃ r, (main_untar o w t).calls = t ++ r ∧
      ∀ x ∈ r, x = Call.get_base ∨
        x = Call.new_UnTar 0 4096 (!o.raw && w.get_base) (o.gz_index_path != "") ∨
        x = Call.extract_all ∨ x = Call.sha256_checksum := by
  unfold main_untar
  simp only [exit_fail, exit_ok]
  cases o.raw <;> split_ifs <;> simp only [List.append_assoc, Bool.false_eq_true, if_false,
      if_true] <;> refine ⟨_, rfl, ?_⟩ <;> intro x hx <;> simp at hx <;> tauto

/-- Lines 166 to 206: the calls added to those made before. -/
theorem main_source_calls (o : Options) (w : Collaborators) (t : List Call) :
    ∃ r, (main_source o w t).calls = t ++ r ∧ EngineCalls o w r := by
  unfold main_source open_file
  by_cases hi : w.open_input = false
  · rw [if_pos hi, exit_fail]
    exact ⟨_, rfl, engineCalls_of_other o w _ (by simp [Call.other])⟩
  · rw [if_neg hi]
    dsimp only
    have hG1 : ∀ f b base m, Call.new_UnTar f b base m ∉
        (if w.is_gzfile then
          (if o.gz_index_path != "" then
            [Call.create_gz_index o.gz_index_path (1024 * 1024), Call.lseek 0 0]
           else []) ++ [Call.open_gzfile_adaptor o.input_path]
         else []) := by
      intro f b base m; split_ifs <;> simp
    have hG2 : ∀ p s, Call.create_gz_index p s ∈
        (if w.is_gzfile then
          (if o.gz_index_path != "" then
            [Call.create_gz_index o.gz_index_path (1024 * 1024), Call.lseek 0 0]
           else []) ++ [Call.open_gzfile_adaptor o.input_path]
         else []) →
        w.is_gzfile = true ∧ o.gz_index_path ≠ "" ∧ p = o.gz_index_path ∧ s = 1048576 := by
      intro p s; split_ifs with hg hp <;> simp
      intro h1 h2
      exact ⟨hg, by simpa using hp, h1, h2⟩
    have hG3 : w.is_gzfile = true → o.gz_index_path ≠ "" →
        Call.create_gz_index o.gz_index_path 1048576 ∈
        (if w.is_gzfile then
          (if o.gz_index_path != "" then
            [Call.create_gz_index o.gz_index_path (1024 * 1024), Call.lseek 0 0]
           else []) ++ [Call.open_gzfile_adaptor o.input_path]
         else []) := by
      intro hg hp
      have hp2 : (o.gz_index_path != "") = true := by simpa using hp
      simp [hg, hp2]
    generalize (if w.is_gzfile then
          (if o.gz_index_path != "" then
            [Call.create_gz_index o.gz_index_path (1024 * 1024), Call.lseek 0 0]
           else []) ++ [Call.open_gzfile_adaptor o.input_path]
         else []) = G at hG1 hG2 hG3 ⊢
    have hT : (if o.sha256_checksum.isEmpty = false then
        t ++ [Call.open_localfile_adaptor o.input_path O_RDONLY 0o666] ++ [Call.is_gzfile] ++ G ++
          [Call.new_SHA256CheckedFile]
       else
        t ++ [Call.open_localfile_adaptor o.input_path O_RDONLY 0o666] ++ [Call.is_gzfile] ++ G) =
        t ++ ([Call.open_localfile_adaptor o.input_path O_RDONLY 0o666, Call.is_gzfile] ++
          (G ++ (if o.sha256_checksum.isEmpty = false then [Call.new_SHA256CheckedFile]
            else []))) := by
      split <;> simp
    rw [hT]
    have hSo : ∀ x ∈ (if o.sha256_checksum.isEmpty = false then [Call.new_SHA256CheckedFile]
        else []), x.other = true := by
      split <;> simp [Call.other]
    generalize (if o.sha256_checksum.isEmpty = false then [Call.new_SHA256CheckedFile]
        else []) = S at hSo ⊢
    obtain ⟨r, hr, hrx⟩ := main_untar_calls o w
      (t ++ ([Call.open_localfile_adaptor o.input_path O_RDONLY 0o666, Call.is_gzfile] ++
        (G ++ S)))
    refine ⟨[Call.open_localfile_adaptor o.input_path O_RDONLY 0o666, Call.is_gzfile] ++
      (G ++ (S ++ r)), by rw [hr]; simp only [List.append_assoc], ?_⟩
    apply engineCalls_append o w _ _ (by simp [Call.other])
    refine ⟨?_, ?_, ?_⟩
    · intro f b base m hmem
      simp only [List.mem_append] at hmem
      rcases hmem with hmem | hmem | hmem
      · exact absurd hmem (hG1 f b base m)
      · exact absurd (hSo _ hmem) (by simp [Call.other])
      · rcases hrx _ hmem with h | h | h | h <;> simp at h
        exact ⟨h.1, h.2.1, h.2.2.2⟩
    · intro p s hmem
      simp only [List.mem_append] at hmem
      rcases hmem with hmem | hmem | hmem
      · exact hG2 p s hmem
      · exact absurd (hSo _ hmem) (by simp [Call.other])
      · rcases hrx _ hmem with h | h | h | h <;> simp at h
    · intro _ hg hp
      exact List.mem_append_left _ (hG3 hg hp)

/-- Lines 143 to 206: the calls added to those made before. -/
theorem main_target_calls (o : Options) (w : Collaborators) (imgfile : Bool) (t : List Call) :
    ∃ r, (main_target o w imgfile t).calls = t ++ r ∧ EngineCalls o w r := by
  unfold main_target
  simp only [exit_fail]
  have hM : (if o.mkfs = true then t ++ [Call.make_extfs] else t) =
      t ++ (if o.mkfs = true then [Call.make_extfs] else []) := by
    split <;> simp
  rw [hM]
  have hMo : ∀ x ∈ (if o.mkfs = true then [Call.make_extfs] else []), x.other = true := by
    split <;> simp [Call.other]
  generalize (if o.mkfs = true then [Call.make_extfs] else []) = M at hMo ⊢
  split_ifs
  · exact ⟨[], by simp, engineCalls_of_other o w _ (by simp)⟩
  · exact ⟨M, rfl, engineCalls_of_other o w _ hMo⟩
  · refine ⟨M ++ [Call.new_extfs (o.gz_index_path == "")], by simp, ?_⟩
    apply engineCalls_of_other
    intro x hx
    rcases List.mem_append.mp hx with h | h
    · exact hMo x h
    · simp at h; simp [h, Call.other]
  · refine ⟨M ++ [Call.new_extfs (o.gz_index_path == ""), Call.new_subfs "/" true], by simp, ?_⟩
    apply engineCalls_of_other
    intro x hx
    rcases List.mem_append.mp hx with h | h
    · exact hMo x h
    · simp at h; rcases h with h | h <;> simp [h, Call.other]
  · obtain ⟨r, hr, hR⟩ := main_source_calls o w
      (t ++ M ++ [Call.new_extfs (o.gz_index_path == ""), Call.new_subfs "/" true])
    refine ⟨M ++ ([Call.new_extfs (o.gz_index_path == ""), Call.new_subfs "/" true] ++ r),
      by rw [hr]; simp only [List.append_assoc], ?_⟩
    apply engineCalls_append o w _ _ hMo
    exact engineCalls_append o w _ _ (by simp [Call.other]) hR

/-- The calls of a whole run. -/
theorem main_calls (o : Options) (w : Collaborators) : EngineCalls o w (main o w).calls := by
  unfold main open_file
  generalize (if o.config_path.isEmpty then none else some o.config_path) = cfg
  split_ifs
  · rw [exit_fail]
    exact engineCalls_of_other o w _ (by simp [Call.other])
  · obtain ⟨r, hr, hR⟩ := main_target_calls o w true
      ([] ++ [Call.open_localfile_adaptor o.image_config_path O_RDWR 0o644])
    rw [hr]
    exact engineCalls_append o w _ _ (by simp [Call.other]) hR
  · rw [exit_fail]
    exact engineCalls_of_other o w _ (by simp [Call.other])
  · obtain ⟨r, hr, hR⟩ := main_target_calls o w w.create_image_file
      [Call.create_image_service cfg, Call.create_image_file o.image_config_path]
    rw [hr]
    exact engineCalls_append o w _ _ (by simp [Call.other]) hR

/-- C9, as the code has it. Whenever `main` constructs the `UnTar` engine it
passes flags 0, block size 4096 and, as the last argument, `gz_index_path != ""`:
the mode follows the option alone, whether or not the input is a gzip file.
`create_gz_index` is called only for a gzip input with a non-empty
`--gz_index_path`, with that path and stride `1024*1024 = 1048576`, and it is
called in every such run that reaches `extract_all`; for a plain tar input no
index is built. -/
theorem C9_untar_mode_follows_option (o : Options) (w : Collaborators) :
    (∀ f b base m, Call.new_UnTar f b base m ∈ (main o w).calls →
      f = 0 ∧ b = 4096 ∧ m = (o.gz_index_path != "")) ∧
    (∀ p s, Call.create_gz_index p s ∈ (main o w).calls →
      w.is_gzfile = true ∧ o.gz_index_path ≠ "" ∧ p = o.gz_index_path ∧ s = 1048576) ∧
    (Call.extract_all ∈ (main o w).calls → w.is_gzfile = true → o.gz_index_path ≠ "" →
      Call.create_gz_index o.gz_index_path 1048576 ∈ (main o w).calls) :=
  main_calls o w

/-- C9 fails as stated: a plain tar input (`is_gzfile` answers false) with
`--gz_index_path layer.gzidx`, in raw mode with every stage succeeding. No
`create_gz_index` is called, no index backs the source stream, and the engine
is built with `true` as last argument. -/
theorem C9_counterexample_plain_tar :
    main
      { raw := true, mkfs := false, verbose := false, config_path := "",
        gz_index_path := "layer.gzidx", sha256_checksum := "", input_path := "layer.tar",
        image_config_path := "image.raw" }
      { open_image := true, create_image_service := true, create_image_file := true,
        make_extfs := 0, new_extfs := true, new_subfs := true, open_input := true,
        is_gzfile := false, create_gz_index := 0, get_base := false, extract_all := 0,
        sha256_checksum := "" } =
    ⟨0, [Call.open_localfile_adaptor "image.raw" 2 420, Call.new_extfs false,
      Call.new_subfs "/" true, Call.open_localfile_adaptor "layer.tar" 0 438, Call.is_gzfile,
      Call.new_UnTar 0 4096 false true, Call.extract_all]⟩ := by
  decide

/-- A run of `main` with a `--checksum` that does not match: a gzip input
with an index path, not raw, every stage succeeding. The extraction is done,
then the checksum is computed and compared, and the status is 255. -/
theorem main_checksum_mismatch_run :
    main
      { raw := false, mkfs := true, verbose := false, config_path := "",
        gz_index_path := "layer.gzidx", sha256_checksum := "sha256:00",
        input_path := "layer.tar.gz", image_config_path := "config.json" }
      { open_image := false, create_image_service := true, create_image_file := true,
        make_extfs := 0, new_extfs := true, new_subfs := true, open_input := true,
        is_gzfile := true, create_gz_index := 0, get_base := true, extract_all := 0,
        sha256_checksum := "sha256:11" } =
    ⟨255, [Call.create_image_service none, Call.create_image_file "config.json",
      Call.make_extfs, Call.new_extfs false, Call.new_subfs "/" true,
      Call.open_localfile_adaptor "layer.tar.gz" 0 438, Call.is_gzfile,
      Call.create_gz_index "layer.gzidx" 1048576, Call.lseek 0 0,
      Call.open_gzfile_adaptor "layer.tar.gz", Call.new_SHA256CheckedFile, Call.get_base,
      Call.new_UnTar 0 4096 true true, Call.extract_all, Call.sha256_checksum]⟩ := by
  decide

end Overlaybd
